import Mathlib

/-!
Shallow embedding of the bit-level packet parser / re-serializer of
`src/gameclient/udk.py` (classes `Packet`, `PacketData`, `PacketAck`,
`ChannelData`, `PayloadData`, `ObjectClass`, `ObjectInstance`,
`ObjectProperty`, the `PropertyValue*` classes, and `ParserState`),
together with the static class registry authored in
`ParserState.__init__`.

Modelling conventions:
* A bitarray with `endian='little'` is a `List Bool`; index 0 is the first
  bit of the stream and the least significant bit of the first byte.
* Python `ParseError` (caught by `PayloadData.frombitarray`) is `Err.parse`;
  exceptions that no decoder catches (`RuntimeError`, `KeyError`,
  `TypeError`, `struct.error`) are `Err.fatal` and abort packet decoding.
* Mutable objects become explicit state threading.  The aliasing between
  `state.channels[channel]['class']` and the entry of `state.class_dict`
  (the same dict object in Python) is rendered by updating both with the
  same descriptor value at binding time; nothing else ever mutates a class
  descriptor, so value semantics is observationally equal.
* `struct.unpack('<f')` / `struct.pack('<f')` (class `PropertyValueFloat`)
  are modelled as the raw 32-bit pattern ("Float read/write is raw IEEE-754
  binary32"); the host-platform quieting of NaN payloads is outside the
  embedding.
* The `while bits:` loops of `ObjectInstance.frombitarray` and
  `Packet.frombitarray` get an explicit fuel argument; fuel exhaustion
  (only possible where the Python loop would not terminate or the loop
  body consumed nothing) yields `Err.fatal`.
-/

namespace Udk

set_option maxRecDepth 200000

/-- A little-endian bit string, index 0 first on the wire. -/
abbrev Bits := List Bool

/-- Bit-string literal from a digit string such as the class keys of
`ParserState.__init__` (`bitarray('10001')` style: index 0 first). -/
def bl (s : String) : Bits := s.toList.map (fun c => c == '1')

/-- Value of a little-endian bit string (bit `i` weighs `2 ^ i`). -/
def bitsToNat : Bits → Nat
  | [] => 0
  | b :: bs => (if b then 1 else 0) + 2 * bitsToNat bs

/-- The `w` low-order bits of `n`, little-endian. -/
def natToBits (n : Nat) : Nat → Bits
  | 0 => []
  | w + 1 => decide (n % 2 = 1) :: natToBits (n / 2) w

/-- `toint` of udk.py: pad the bits with zero bytes, keep the first 4 bytes,
read little-endian — i.e. the value of the first `min 32 (len bits)` bits. -/
def toint (bits : Bits) : Nat := bitsToNat (bits.take 32)

/-- `int2bitarray` of udk.py: `struct.pack('<L', n)` into a little-endian
bitarray (32 bits) then slice `[:nbits]`. -/
def int2bitarray (n nbits : Nat) : Bits := natToBits n (min nbits 32)

/-- Decoder errors.  `parse` is Python's `ParseError` carrying the residual
bits; `fatal` stands for the uncaught exceptions (`RuntimeError`, `KeyError`,
`TypeError`), which no payload captures. -/
inductive Err where
  | parse (msg : String) (bitsleft : Bits)
  | fatal (msg : String)
deriving Repr, DecidableEq

/-- `getnbits` of udk.py: split off the first `n` bits, `ParseError` (with
the whole remaining input) when fewer are available. -/
def getnbits (n : Nat) (bits : Bits) : Except Err (Bits × Bits) :=
  if n > bits.length then
    .error (.parse "Tried to get more bits than are available" bits)
  else
    .ok (bits.take n, bits.drop n)

/-- A byte rendered as its 8 little-endian bits. -/
def byteBits (b : Nat) : Bits := natToBits b 8

/-- Zero-pad a chunk of at most 8 bits up to a full byte (what
`bitarray.tobytes` does to the final partial byte). -/
def pad8 (bs : Bits) : Bits := bs ++ List.replicate (8 - bs.length) false

/-- `bits.tobytes()` on a little-endian bitarray: successive 8-bit chunks,
the final partial chunk zero-padded. -/
def tobytes : Bits → List Nat
  | [] => []
  | b0 :: b1 :: b2 :: b3 :: b4 :: b5 :: b6 :: b7 :: rest =>
      bitsToNat [b0, b1, b2, b3, b4, b5, b6, b7] :: tobytes rest
  | bs => [bitsToNat (pad8 bs)]

/-- `getstring` of udk.py: read bytes up to (excluding) the first zero byte,
return them and the input with `(len + 1)` whole bytes dropped. -/
def getstring (bits : Bits) : List Nat × Bits :=
  let result := (tobytes bits).takeWhile (fun b => b != 0)
  (result, bits.drop ((result.length + 1) * 8))

/-- A decoded `PropertyValueString`: the 32-bit size field and the byte
values of the characters (`latin1`, so byte-for-byte). -/
structure StrV where
  size : Nat
  chars : List Nat
deriving Repr, DecidableEq

/-- `PropertyValueString.tobitarray` for a decoded string. -/
def encStrV (s : StrV) : Bits :=
  int2bitarray s.size 32 ++
    (if s.size > 0 then (s.chars.map byteBits).flatten ++ List.replicate 8 false
     else [])

/-- `PropertyValueString.frombitarray`. -/
def stringFrom (bits : Bits) : Except Err (StrV × Bits) :=
  match getnbits 32 bits with
  | .error e => .error e
  | .ok (szb, b1) =>
    let size := toint szb
    if size > 0 then
      let (v, b2) := getstring b1
      if v.length + 1 ≠ size then
        .error (.parse "string size was not equal to expected size" b2)
      else .ok (⟨size, v⟩, b2)
    else .ok (⟨size, []⟩, b1)

/-- `PropertyValueInt.frombitarray` (also the `short` reads): value of the
consumed bits. -/
def intFrom (bits : Bits) : Except Err (Nat × Bits) :=
  match getnbits 32 bits with
  | .error e => .error e
  | .ok (vb, b1) => .ok (toint vb, b1)

/-- The scalar / composite property kinds dispatched by
`parse_basic_property` of udk.py (`str`, `int`, `float`, `bool`, `'flag'`,
`bitarray`, `PropertyValueMystery1/2/3`). -/
inductive BasicType where
  | tstr | tint | tfloat | tbool | tflag | tbits | tmy1 | tmy2 | tmy3
deriving Repr, DecidableEq

mutual
/-- The `type` entry of a property descriptor: a Python `list` is decoded as
`PropertyValueParams`, a `tuple` as `PropertyValueStruct`, anything else goes
through `parse_basic_property`. -/
inductive PropType where
  | basic (b : BasicType)
  | params (members : List Member)
  | struct (members : List Member)

/-- One member of a params/struct `type` list: the dict
`{'name': ..., 'type': ..., 'size': ...}` with optional entries. -/
inductive Member where
  | mk (name : String) (type : Option PropType) (size : Option Nat)
end

/-- The `name` of a member dict (`member.get('name', None)` always present
in the tables). -/
def Member.name : Member → String
  | .mk n _ _ => n

/-- The `type` of a member dict. -/
def Member.type : Member → Option PropType
  | .mk _ t _ => t

/-- The `size` of a member dict. -/
def Member.size : Member → Option Nat
  | .mk _ _ s => s

/-- A property descriptor: the dict stored in a class's `props` table, with
its optional `type` / `size` / `values` entries (`values` is the
`MultipleChoice` map; an absent or empty dict are both falsy in
`ObjectProperty.frombitarray`, so both are `[]`). -/
structure PropEntry where
  name : String
  type : Option PropType := none
  size : Option Nat := none
  values : List (Bits × String) := []

/-- A decoded scalar / composite value produced by `parse_basic_property`.
This is exactly the set of shapes a params/struct member can hold: the
dispatch of `parse_basic_property` raises `RuntimeError` on `list`, `tuple`
and `None` types, so `Params` / `Struct` values can never nest. -/
inductive BasicValue where
  | vint (n : Nat)
  | vfloat (pattern : Bits)
  | vbool (b : Bool)
  | vflag
  | vbits (bs : Bits)
  | vstr (s : StrV)
  | vmy1 (i1 i2 i3 i4 : Nat) (s1 s2 : StrV) (i5 i6 : Nat) (s3 : StrV)
  | vmy2 (s1 s2 s3 : StrV)
  | vmy3 (s1 s2 : StrV)
deriving Repr, DecidableEq

/-- `tobitarray` of the scalar / composite `PropertyValue*` classes on
decoded objects.  `PropertyValueFloat` stores the raw 32 bits (see the
header note on IEEE-754). -/
def encBasicValue : BasicValue → Bits
  | .vint n => int2bitarray n 32
  | .vfloat p => p
  | .vbool b => [b]
  | .vflag => []
  | .vbits bs => bs
  | .vstr s => encStrV s
  | .vmy1 i1 i2 i3 i4 s1 s2 i5 i6 s3 =>
      int2bitarray i1 32 ++ int2bitarray i2 32 ++ int2bitarray i3 32 ++
      int2bitarray i4 32 ++ encStrV s1 ++ encStrV s2 ++
      int2bitarray i5 32 ++ int2bitarray i6 32 ++ encStrV s3
  | .vmy2 s1 s2 s3 => encStrV s1 ++ encStrV s2 ++ encStrV s3
  | .vmy3 s1 s2 => encStrV s1 ++ encStrV s2

/-- A decoded property value (the `PropertyValue*` object states observable
through `tobitarray`).  `vempty` is a value object whose fields are still
`None` — the `PropertyValueBitarray()` placeholder installed by
`ObjectProperty.frombitarray`'s exception handler and the untouched
`PropertyValueMultipleChoice` of a failed choice read — which serializes to
nothing.  `vparams` and `vstruct` keep their member list (`param_list` /
`member_list`) and possibly-short `presence` / `values` lists, exactly as a
partially decoded Python object does. -/
inductive Value where
  | basic (v : BasicValue)
  | vchoice (valuebits : Bits) (label : String)
  | vparams (param_list : List Member) (presence : List Bool)
      (values : List (Option BasicValue))
  | vstruct (member_list : List Member) (values : List BasicValue)
  | vempty

/-- Encoding of an optional member value inside `Params`. -/
def encOptValue : Option BasicValue → Bits
  | none => []
  | some v => encBasicValue v

/-- `PropertyValueParams.tobitarray`: iterate
`zip_longest(self.presence, self.values)`; a missing presence entry is
falsy (`0` bit, one per leftover value), a present entry with a missing or
`None` value emits just its `1` bit.  The declared `param_list` is not
consulted.  (Recursion is on `presence`; the value side advances by
`headD` / `tail`, which is exactly the zip-longest pairing.) -/
def encParamsAux : List Bool → List (Option BasicValue) → Bits
  | [], vs => vs.map (fun _ => false)
  | p :: ps, vs =>
      (if p then true :: encOptValue (vs.headD none) else [false]) ++
      encParamsAux ps vs.tail

/-- `tobitarray` of a property value object. -/
def encValue : Value → Bits
  | .basic v => encBasicValue v
  | .vchoice vb _ => vb
  | .vparams _ pres vals => encParamsAux pres vals
  | .vstruct _ vs => (vs.map encBasicValue).flatten
  | .vempty => []

/-- `PropertyValueMystery1.frombitarray`: four ints, two strings, two ints,
one string, in order. -/
def mystery1From (bits : Bits) : Except Err (BasicValue × Bits) :=
  match intFrom bits with
  | .error e => .error e
  | .ok (i1, b1) =>
  match intFrom b1 with
  | .error e => .error e
  | .ok (i2, b2) =>
  match intFrom b2 with
  | .error e => .error e
  | .ok (i3, b3) =>
  match intFrom b3 with
  | .error e => .error e
  | .ok (i4, b4) =>
  match stringFrom b4 with
  | .error e => .error e
  | .ok (s1, b5) =>
  match stringFrom b5 with
  | .error e => .error e
  | .ok (s2, b6) =>
  match intFrom b6 with
  | .error e => .error e
  | .ok (i5, b7) =>
  match intFrom b7 with
  | .error e => .error e
  | .ok (i6, b8) =>
  match stringFrom b8 with
  | .error e => .error e
  | .ok (s3, b9) => .ok (.vmy1 i1 i2 i3 i4 s1 s2 i5 i6 s3, b9)

/-- `PropertyValueMystery2.frombitarray`: three strings. -/
def mystery2From (bits : Bits) : Except Err (BasicValue × Bits) :=
  match stringFrom bits with
  | .error e => .error e
  | .ok (s1, b1) =>
  match stringFrom b1 with
  | .error e => .error e
  | .ok (s2, b2) =>
  match stringFrom b2 with
  | .error e => .error e
  | .ok (s3, b3) => .ok (.vmy2 s1 s2 s3, b3)

/-- `PropertyValueMystery3.frombitarray`: two strings. -/
def mystery3From (bits : Bits) : Except Err (BasicValue × Bits) :=
  match stringFrom bits with
  | .error e => .error e
  | .ok (s1, b1) =>
  match stringFrom b1 with
  | .error e => .error e
  | .ok (s2, b2) => .ok (.vmy3 s1 s2, b2)

/-- `parse_basic_property` of udk.py.  A `list` (`params`), `tuple`
(`struct`) or `None` type falls through every `is` test into the
`RuntimeError` branch; a `bitarray` type with no size reaches
`getnbits(None, ...)`, whose `None > len` comparison is a `TypeError` —
both are fatal. -/
def parseBasicProperty (ptype : Option PropType) (psize : Option Nat)
    (bits : Bits) : Except Err (BasicValue × Bits) :=
  match ptype with
  | some (.basic .tstr) =>
    match stringFrom bits with
    | .error e => .error e
    | .ok (s, b1) => .ok (.vstr s, b1)
  | some (.basic .tint) =>
    match intFrom bits with
    | .error e => .error e
    | .ok (n, b1) => .ok (.vint n, b1)
  | some (.basic .tfloat) =>
    match getnbits 32 bits with
    | .error e => .error e
    | .ok (vb, b1) => .ok (.vfloat vb, b1)
  | some (.basic .tbool) =>
    match getnbits 1 bits with
    | .error e => .error e
    | .ok (vb, b1) => .ok (.vbool (vb.headD false), b1)
  | some (.basic .tflag) => .ok (.vflag, bits)
  | some (.basic .tbits) =>
    match psize with
    | none => .error (.fatal "TypeError: size is None")
    | some n =>
      match getnbits n bits with
      | .error e => .error e
      | .ok (vb, b1) => .ok (.vbits vb, b1)
  | some (.basic .tmy1) => mystery1From bits
  | some (.basic .tmy2) => mystery2From bits
  | some (.basic .tmy3) => mystery3From bits
  | some (.params _) | some (.struct _) | none =>
      .error (.fatal "RuntimeError: propertytype has invalid value")

/-- `PropertyValueParams.frombitarray`.  The presence bit is appended
before the member value is parsed and the value only after a successful
parse, so a failing member leaves `presence` one longer than `values`:
both partial lists are returned beside the outcome, since the partially
decoded object stays reachable from the property. -/
def paramsFrom (members : List Member) (bits : Bits) :
    (List Bool × List (Option BasicValue)) × Except Err Bits :=
  match members with
  | [] => (([], []), .ok bits)
  | m :: ms =>
    match getnbits 1 bits with
    | .error e => (([], []), .error e)
    | .ok (pb, b1) =>
      let p := pb.headD false
      if p then
        match parseBasicProperty m.type m.size b1 with
        | .error e => (([p], []), .error e)
        | .ok (v, b2) =>
          let ((ps, vs), r) := paramsFrom ms b2
          ((p :: ps, some v :: vs), r)
      else
        let ((ps, vs), r) := paramsFrom ms b1
        ((p :: ps, none :: vs), r)

/-- `PropertyValueStruct.frombitarray`: members decoded positionally;
values appended only after a successful parse. -/
def structFrom (members : List Member) (bits : Bits) :
    List BasicValue × Except Err Bits :=
  match members with
  | [] => ([], .ok bits)
  | m :: ms =>
    match parseBasicProperty m.type m.size bits with
    | .error e => ([], .error e)
    | .ok (v, b1) =>
      let (vs, r) := structFrom ms b1
      (v :: vs, r)

/-- `PropertyValueMultipleChoice.frombitarray`: take `size` bits, map them
through the `values` dict (default label `"Unknown"`).  A `None` size is
the same `TypeError` as for sized bitarrays. -/
def choiceFrom (psize : Option Nat) (values : List (Bits × String))
    (bits : Bits) : Except Err ((Bits × String) × Bits) :=
  match psize with
  | none => .error (.fatal "TypeError: size is None")
  | some n =>
    match getnbits n bits with
    | .error e => .error e
    | .ok (vb, b1) =>
      let label := ((values.find? (fun kv => kv.1 == vb)).map (·.2)).getD "Unknown"
      .ok ((vb, label), b1)

/-- An `ObjectProperty` as observable through `tobitarray`: the id width it
was constructed with, the decoded property id (or `None` when the id read
itself failed) and the value object (or `None`). -/
structure ObjProp where
  idsize : Nat
  propertyid : Option Nat := none
  propname : String := "Unknown"
  value : Option Value := none

/-- `ObjectProperty.tobitarray`. -/
def encObjProp (p : ObjProp) : Bits :=
  (match p.propertyid with
   | none => []
   | some pid => int2bitarray pid p.idsize) ++
  (match p.value with
   | none => []
   | some v => encValue v)

/-- A class descriptor: one entry of `state.class_dict`.  `idsize` mirrors
the `'idsize'` key, which the dicts of `ParserState.__init__` do not have
until the first binding of the class writes it. -/
structure ClassDescr where
  name : String
  props : List (Bits × PropEntry)
  idsize : Option Nat := none

/-- `ObjectProperty.frombitarray`: read `idsize` bits, look the key up in
the class's property table; `values` (truthy, i.e. non-empty) selects the
multiple-choice codec, then a `list` type selects `Params`, a `tuple`
`Struct`, any other type `parse_basic_property` (whose failure installs an
empty `PropertyValueBitarray` before re-raising); no type and no values is
the `Unknown property` `ParseError`.  The partially decoded property is
returned beside the outcome because `ObjectInstance` has already appended
it. -/
def objPropFrom (idsize : Nat) (class_ : ClassDescr) (bits : Bits) :
    ObjProp × Except Err Bits :=
  match getnbits idsize bits with
  | .error e => ({ idsize := idsize }, .error e)
  | .ok (idbits, b1) =>
    let pid := toint idbits
    match (class_.props.find? (fun kv => kv.1 == idbits)).map (·.2) with
    | none =>
      ({ idsize := idsize, propertyid := some pid },
       .error (.parse "Unknown property" b1))
    | some pe =>
      if pe.values ≠ [] then
        match choiceFrom pe.size pe.values b1 with
        | .error e =>
          ({ idsize := idsize, propertyid := some pid, propname := pe.name,
             value := some .vempty }, .error e)
        | .ok ((vb, label), b2) =>
          ({ idsize := idsize, propertyid := some pid, propname := pe.name,
             value := some (.vchoice vb label) }, .ok b2)
      else
        match pe.type with
        | some (.params members) =>
          let ((ps, vs), r) := paramsFrom members b1
          ({ idsize := idsize, propertyid := some pid, propname := pe.name,
             value := some (.vparams members ps vs) }, r)
        | some (.struct members) =>
          let (vs, r) := structFrom members b1
          ({ idsize := idsize, propertyid := some pid, propname := pe.name,
             value := some (.vstruct members vs) }, r)
        | some (.basic b) =>
          match parseBasicProperty (some (.basic b)) pe.size b1 with
          | .error e =>
            ({ idsize := idsize, propertyid := some pid, propname := pe.name,
               value := some .vempty }, .error e)
          | .ok (v, b2) =>
            ({ idsize := idsize, propertyid := some pid, propname := pe.name,
               value := some (.basic v) }, .ok b2)
        | none =>
          ({ idsize := idsize, propertyid := some pid, propname := pe.name },
           .error (.parse "Unknown property" b1))

/-- `ObjectInstance.frombitarray`: decode properties until the bits run
out; each property is appended to the list before its decode, so a failing
property is part of the partial result.  `fuel` bounds the `while` loop
(each iteration of the Python loop consumes at least the id bits; callers
pass `length + 1`). -/
def objInstFrom (fuel : Nat) (class_ : ClassDescr) (idsize : Nat)
    (bits : Bits) : List ObjProp × Except Err Bits :=
  match fuel with
  | 0 => ([], .error (.fatal "loop fuel exhausted"))
  | fuel + 1 =>
    match bits with
    | [] => ([], .ok [])
    | _ =>
      let (p, r) := objPropFrom idsize class_ bits
      match r with
      | .error e => ([p], .error e)
      | .ok b2 =>
        let (ps, r2) := objInstFrom fuel class_ idsize b2
        (p :: ps, r2)

/-- `ObjectInstance.tobitarray`. -/
def encObjInst (props : List ObjProp) : Bits := (props.map encObjProp).flatten

/-- `ObjectClass.getclasskey`: the 32 class-id bits, with the low 27
zeroed when the first five are `10001`. -/
def getclasskey (classid : Nat) : Bits :=
  let classbits := int2bitarray classid 32
  if classbits.take 5 == bl "10001" then
    classbits.take 5 ++ List.replicate 27 false
  else classbits

/-- A channel binding: one entry of `state.channels`, holding the bound
class descriptor (with its `idsize` set) and the instance name. -/
structure ChannelBinding where
  class_ : ClassDescr
  instancename : String

/-- The per-session parser state (`ParserState`): the class registry, the
per-class-name instance counters (the stored number is the last used
sequence number) and the open-channel table. -/
structure ParserState where
  class_dict : List (Option Bits × ClassDescr)
  instance_count : List (String × Nat)
  channels : List (Nat × ChannelBinding)

/-- Association-list lookup (Python `dict` access / `in`). -/
def lookupA {α β : Type} [BEq α] (l : List (α × β)) (k : α) : Option β :=
  (l.find? (fun kv => kv.1 == k)).map (·.2)

/-- Association-list update: replace in place if the key is present
(Python dicts keep the position), append otherwise. -/
def updateA {α β : Type} [BEq α] (l : List (α × β)) (k : α) (v : β) :
    List (α × β) :=
  if (l.find? (fun kv => kv.1 == k)).isSome then
    l.map (fun kv => if kv.1 == k then (k, v) else kv)
  else l ++ [(k, v)]

/-- Association-list deletion (Python `del`). -/
def delA {α β : Type} [BEq α] (l : List (α × β)) (k : α) : List (α × β) :=
  l.filter (fun kv => kv.1 != k)

/-- `ObjectClass.frombitarray`, state part: a class key not yet in
`state.class_dict` registers a synthetic descriptor named
`unknown<len(class_dict)>` with an empty property table. -/
def registerClass (st : ParserState) (key : Bits) : ParserState :=
  if (st.class_dict.find? (fun kv => kv.1 == some key)).isSome then st
  else { st with class_dict :=
    st.class_dict ++ [(some key,
      { name := "unknown" ++ toString st.class_dict.length, props := [] })] }

/-- `state.instance_count.get(classname, -1) + 1`: the sequence number the
next introduction of this class name receives. -/
def nextCount (st : ParserState) (classname : String) : Nat :=
  match lookupA st.instance_count classname with
  | none => 0
  | some n => n + 1

/-- The binding block of `PayloadData.frombitarray` (udk.py lines
1396-1405): look the class up (`KeyError`, i.e. `none`, if the key is
absent — only possible for the `None` root key), write its `idsize` (first
property key's width, default 6), bump the per-class-name instance counter
(`get(classname, -1) + 1`), and bind the channel.  The descriptor stored in
the binding is the same (updated) one stored back in `class_dict`. -/
def bindChannel (st : ParserState) (channel : Nat) (key : Option Bits) :
    Option (ClassDescr × String × ParserState) :=
  match lookupA st.class_dict key with
  | none => none
  | some cls =>
    let w := match cls.props with
             | [] => 6
             | (k, _) :: _ => k.length
    let cls' := { cls with idsize := some w }
    let cnt := nextCount st cls.name
    let iname := cls.name ++ "_" ++ toString cnt
    some (cls', iname,
      { st with
        class_dict := updateA st.class_dict key cls',
        instance_count := updateA st.instance_count cls.name cnt,
        channels := updateA st.channels channel ⟨cls', iname⟩ })

/-- `ObjectClass` as observable through `tobitarray`: the decoded class id
or `None` when the 32-bit read failed. -/
structure ObjClass where
  classid : Option Nat

/-- Outcome of the `try` block of `PayloadData.frombitarray`: a clean
decode, a captured `ParseError` (with the partially decoded fields the
payload object keeps), or an uncaught exception. -/
inductive BodyResult where
  | ok (oc : Option ObjClass) (iname : Option String)
      (inst : Option (List ObjProp)) (deleted : Bool) (st' : ParserState)
  | captured (oc : Option ObjClass) (iname : Option String)
      (inst : Option (List ObjProp)) (msg : String) (bitsleft : Bits)
      (st' : ParserState)
  | fatal (msg : String)

/-- The instance-decoding tail of the `try` block: read `class_['idsize']`
(a `KeyError` if the binding predates any `idsize` write — impossible for
bindings this code creates), run `ObjectInstance.frombitarray` on the
payload body, raise `Bits of payload left over` on a non-empty remainder
(unreachable: the instance loop only stops on empty bits), and on a clean
decode of a size-0 payload mark the object deleted and drop the channel
binding.  (`ObjectInstance`'s `is_rpc` flag and unused `state` argument
have no observable effect and are omitted.) -/
def runObjBody (oc : Option ObjClass) (iname : String) (cls : ClassDescr)
    (bodybits : Bits) (channel size : Nat) (st : ParserState) : BodyResult :=
  match cls.idsize with
  | none => .fatal "KeyError: idsize"
  | some w =>
    match objInstFrom (bodybits.length + 1) cls w bodybits with
    | (props, .error (.parse m blv)) =>
        .captured oc (some iname) (some props) m blv st
    | (_, .error (.fatal m)) => .fatal m
    | (props, .ok leftover) =>
      if leftover ≠ [] then
        .captured oc (some iname) (some props) "Bits of payload left over"
          leftover st
      else if size = 0 then
        .ok oc (some iname) (some props) true
          { st with channels := delA st.channels channel }
      else .ok oc (some iname) (some props) false st

/-- The `try` block of `PayloadData.frombitarray`: an unbound channel first
reads a 32-bit class key (`self.object_class = ObjectClass()` precedes the
read, so a short read leaves an id-less object), registers unknown keys,
and binds the channel — with lookup key `None` instead of the read key when
the channel is 0; a bound channel reuses its binding. -/
def payloadBody (payloadbits : Bits) (channel : Nat) (size : Nat)
    (st : ParserState) : BodyResult :=
  match lookupA st.channels channel with
  | some binding =>
      runObjBody none binding.instancename binding.class_ payloadbits
        channel size st
  | none =>
    match getnbits 32 payloadbits with
    | .error (.parse m blv) => .captured (some ⟨none⟩) none none m blv st
    | .error (.fatal m) => .fatal m
    | .ok (classbits, rest) =>
      let classid := toint classbits
      let key := getclasskey classid
      let st1 := registerClass st key
      match bindChannel st1 channel
          (if channel ≠ 0 then some key else none) with
      | none => .fatal "KeyError: class_dict"
      | some (cls, iname, st2) =>
          runObjBody (some ⟨some classid⟩) iname cls rest channel size st2

/-- The size-field read of `PayloadData.frombitarray`: 14 bits; if bits 10
and 13 are both set the last (most significant) bit is cut off the size
field and pushed back (`insert(0, True)`) onto the stream.  Returns
`((size, nr_of_payload_bits), rest)`. -/
def readPayloadSize (bits : Bits) : Except Err ((Nat × Nat) × Bits) :=
  match getnbits 14 bits with
  | .error e => .error e
  | .ok (szbits, b1) =>
    if szbits.getD 10 false && szbits.getD 13 false then
      let szbits' := szbits.dropLast
      .ok ((toint szbits', szbits'.length), true :: b1)
    else
      .ok ((toint szbits, szbits.length), b1)

/-- A `PayloadData` object as observable after `frombitarray`. -/
structure PayloadData where
  reliable : Bool
  size : Option Nat := none
  nrOfPayloadBits : Nat := 0
  object_class : Option ObjClass := none
  object_deleted : Bool := false
  instancename : Option String := none
  instanceProps : Option (List ObjProp) := none
  bitsleftreason : Option String := none
  bitsleft : Option Bits := none

/-- `PayloadData.tobitarray`: size field, then class id, instance
properties and captured remainder, each only when present. -/
def encPayload (p : PayloadData) : Bits :=
  (match p.size with
   | none => []
   | some s => int2bitarray s p.nrOfPayloadBits) ++
  (match p.object_class with
   | none => []
   | some oc => match oc.classid with
                | none => []
                | some cid => int2bitarray cid 32) ++
  (match p.instanceProps with
   | none => []
   | some props => encObjInst props) ++
  (match p.bitsleft with
   | none => []
   | some blv => blv)

/-- `PayloadData.frombitarray`. -/
def payloadFrom (bits : Bits) (channel : Nat) (reliable : Bool)
    (st : ParserState) : Except Err ((PayloadData × ParserState) × Bits) :=
  match readPayloadSize bits with
  | .error e => .error e
  | .ok ((size, nbits), b1) =>
    match getnbits size b1 with
    | .error e => .error e
    | .ok (payloadbits, b2) =>
      match payloadBody payloadbits channel size st with
      | .fatal m => .error (.fatal m)
      | .ok oc iname inst deleted st' =>
        .ok (({ reliable := reliable, size := some size,
                nrOfPayloadBits := nbits, object_class := oc,
                object_deleted := deleted, instancename := iname,
                instanceProps := inst }, st'), b2)
      | .captured oc iname inst m blv st' =>
        .ok (({ reliable := reliable, size := some size,
                nrOfPayloadBits := nbits, object_class := oc,
                object_deleted := false, instancename := iname,
                instanceProps := inst, bitsleftreason := some m,
                bitsleft := some blv }, st'), b2)

/-- A `ChannelData` object. -/
structure ChannelData where
  channel : Nat
  counter : Option Nat := none
  unknownbits : Option Bits := none
  payload : PayloadData

/-- `ChannelData.tobitarray`. -/
def encChannelData (c : ChannelData) : Bits :=
  int2bitarray c.channel 10 ++
  (match c.counter with
   | none => []
   | some ct => int2bitarray ct 5 ++ (c.unknownbits.getD [])) ++
  encPayload c.payload

/-- `ChannelData.frombitarray`: 10-bit channel number, then (for reliable
frames) a 5-bit counter and 8 opaque bits, then the payload. -/
def channelFrom (bits : Bits) (withCounter : Bool) (st : ParserState) :
    Except Err ((ChannelData × ParserState) × Bits) :=
  match getnbits 10 bits with
  | .error e => .error e
  | .ok (cb, b1) =>
    let channel := toint cb
    if withCounter then
      match getnbits 5 b1 with
      | .error e => .error e
      | .ok (ctb, b2) =>
        match getnbits 8 b2 with
        | .error e => .error e
        | .ok (ub, b3) =>
          match payloadFrom b3 channel true st with
          | .error e => .error e
          | .ok ((p, st'), b4) =>
            .ok (({ channel := channel, counter := some (toint ctb),
                    unknownbits := some ub, payload := p }, st'), b4)
    else
      match payloadFrom b1 channel false st with
      | .error e => .error e
      | .ok ((p, st'), b4) =>
        .ok (({ channel := channel, payload := p }, st'), b4)

/-- A `PacketData` object. -/
structure PacketData where
  flag1a : Option Bits := none
  unknownbits11 : Bool := false
  unknownbits10 : Option Bits := none
  channel_data : Option ChannelData := none

/-- `PacketData.tobitarray`. -/
def encPacketData (d : PacketData) : Bits :=
  (if d.unknownbits11 then bl "11" else []) ++
  (match d.flag1a with | none => [] | some f => f) ++
  (match d.unknownbits10 with | none => [] | some u => u) ++
  (match d.channel_data with | none => [] | some cd => encChannelData cd)

/-- Shared tail of `PacketData.frombitarray`: decode the channel data and
assemble the object. -/
def packetDataFinish (esc : Bool) (flag : Bits) (u10 : Option Bits)
    (withCounter : Bool) (bits : Bits) (st : ParserState) :
    Except Err ((PacketData × ParserState) × Bits) :=
  match channelFrom bits withCounter st with
  | .error e => .error e
  | .ok ((cd, st'), b) =>
    .ok (({ flag1a := some flag, unknownbits11 := esc,
            unknownbits10 := u10, channel_data := some cd }, st'), b)

/-- `PacketData.frombitarray`: a leading `11` is an escape (re-read the
2-bit flag); `00` = channel without counter, `01` = with counter, `10` =
with counter after a 2-bit field that must be `11`, anything else (a second
`11`) is a `ParseError`. -/
def packetDataFrom (bits : Bits) (st : ParserState) :
    Except Err ((PacketData × ParserState) × Bits) :=
  match getnbits 2 bits with
  | .error e => .error e
  | .ok (f0, b0) =>
    match (if f0 == bl "11" then
             match getnbits 2 b0 with
             | .error e => .error e
             | .ok (f1, b1) => .ok ((true, f1), b1)
           else .ok ((false, f0), b0) :
           Except Err ((Bool × Bits) × Bits)) with
    | .error e => .error e
    | .ok ((esc, flag), b1) =>
      if flag == bl "00" then
        packetDataFinish esc flag none false b1 st
      else if flag == bl "01" then
        packetDataFinish esc flag none true b1 st
      else if flag == bl "10" then
        match getnbits 2 b1 with
        | .error e => .error e
        | .ok (u10, b2) =>
          if u10 != bl "11" then
            .error (.parse "Unexpected value for unknownbits10" b2)
          else
            packetDataFinish esc flag (some u10) true b2 st
      else
        .error (.parse "Unexpected value for flag1a" b1)

/-- A packet part: `PacketData` (tag bit 0) or `PacketAck` (tag bit 1). -/
inductive Part where
  | data (d : PacketData)
  | ack (acknr : Nat)

/-- One part of `Packet.tobitarray`: the tag bit and the part body. -/
def encPart : Part → Bits
  | .data d => false :: encPacketData d
  | .ack n => true :: int2bitarray n 14

/-- The parts section of `Packet.tobitarray`. -/
def encParts : List Part → Bits
  | [] => []
  | p :: ps => encPart p ++ encParts ps

/-- A `Packet` object. -/
structure Packet where
  seqnr : Option Nat := none
  parts : List Part := []
  paddingbits : Option Bits := none

/-- `Packet.tobitarray`: sequence number, tagged parts, the terminator `1`
bit, then the padding when present.  (The Python code would crash on a
`None` seqnr; encoding is only applied to decoded packets, whose seqnr is
always set.) -/
def encPacket (p : Packet) : Bits :=
  (match p.seqnr with | none => [] | some s => int2bitarray s 14) ++
  encParts p.parts ++ [true] ++
  (match p.paddingbits with | none => [] | some pb => pb)

/-- The `while bits:` part loop of `Packet.frombitarray`: tag bit 0 starts
a `PacketData`, tag bit 1 an ack when at least 14 bits remain, otherwise
the `1` is the terminator and the loop stops.  Runs with fuel (each Python
iteration consumes the tag bit, so `length + 1` suffices). -/
def partsLoop (fuel : Nat) (bits : Bits) (st : ParserState) :
    Except Err ((List Part × ParserState) × Bits) :=
  match fuel with
  | 0 => .error (.fatal "loop fuel exhausted")
  | fuel + 1 =>
    match bits with
    | [] => .ok (([], st), [])
    | _ =>
      match getnbits 1 bits with
      | .error e => .error e
      | .ok (f, b1) =>
        if f == [false] then
          match packetDataFrom b1 st with
          | .error e => .error e
          | .ok ((d, st'), b2) =>
            match partsLoop fuel b2 st' with
            | .error e => .error e
            | .ok ((ps, st''), b3) => .ok ((.data d :: ps, st''), b3)
        else if b1.length ≥ 14 then
          match getnbits 14 b1 with
          | .error e => .error e
          | .ok (ab, b2) =>
            match partsLoop fuel b2 st with
            | .error e => .error e
            | .ok ((ps, st'), b3) => .ok ((.ack (toint ab) :: ps, st'), b3)
        else .ok (([], st), b1)

/-- `Packet.frombitarray`: 14-bit sequence number, the part loop, then the
self-check `len(bits) == original_nbits - parsed_nbits` (a `RuntimeError`
when violated — computed over `Int` since the Python subtraction can go
negative), and the padding rule `nr_of_padding_bits = 8 - parsed % 8`
(`ParseError` when the remainder differs). -/
def packetFrom (bits : Bits) (st : ParserState) :
    Except Err ((Packet × ParserState) × Bits) :=
  match getnbits 14 bits with
  | .error e => .error e
  | .ok (sb, b1) =>
    let seqnr := toint sb
    match partsLoop (b1.length + 1) b1 st with
    | .error e => .error e
    | .ok ((parts, st'), b2) =>
      let parsed := (encPacket { seqnr := some seqnr, parts := parts }).length
      if (b2.length : Int) ≠ (bits.length : Int) - (parsed : Int) then
        .error (.fatal "Coding error: parsed + unparsed is not total")
      else
        let npad := 8 - parsed % 8
        if b2.length ≠ npad then
          .error (.parse "Left over bits at the end of the packet" b2)
        else
          match getnbits npad b2 with
          | .error e => .error e
          | .ok (pb, b3) =>
            .ok (({ seqnr := some seqnr, parts := parts,
                    paddingbits := some pb }, st'), b3)

/-- Property table `TrInventoryManagerProps` (src/gameclient/udk.py, ParserState.__init__). -/
def pTrInventoryManagerProps : List (Bits × PropEntry) := [
  (bl "01111", { name := "Instigator", type := some (.basic .tbits), size := some 10, values := [] }),
  (bl "11111", { name := "Owner", type := some (.basic .tbits), size := some 10, values := [] }),
  (bl "10101", { name := "InventoryChain", type := some (.basic .tbits), size := some 11, values := [] })]

/-- Property table `TrPlayerPawnProps` (src/gameclient/udk.py, ParserState.__init__). -/
def pTrPlayerPawnProps : List (Bits × PropEntry) := [
  (bl "1010000", { name := "bNetOwner", type := some (.basic .tbool), size := none, values := [] }),
  (bl "1101000", { name := "RemoteRole", type := some (.basic .tbits), size := some 2, values := [] }),
  (bl "1111000", { name := "Owner", type := some (.basic .tbits), size := some 11, values := [] }),
  (bl "1100100", { name := "Rotation", type := some (.basic .tbits), size := some 11, values := [] }),
  (bl "1001100", { name := "InvManager", type := some (.basic .tbits), size := some 11, values := [] }),
  (bl "0111100", { name := "PlayerReplicationInfo", type := some (.basic .tbits), size := some 11, values := [] }),
  (bl "1111100", { name := "HealthMax", type := some (.basic .tint), size := none, values := [] }),
  (bl "0000010", { name := "Health", type := some (.basic .tint), size := none, values := [] }),
  (bl "1000010", { name := "AirControl", type := some (.basic .tint), size := none, values := [] }),
  (bl "0110010", { name := "GroundSpeed", type := some (.basic .tint), size := none, values := [] }),
  (bl "1101010", { name := "bCanSwatTurn", type := some (.basic .tbool), size := none, values := [] }),
  (bl "0011010", { name := "bSimulateGravity", type := some (.basic .tbool), size := none, values := [] }),
  (bl "1111010", { name := "Controller", type := some (.basic .tbits), size := some 11, values := [] }),
  (bl "1000110", { name := "CompressedBodyMatColor", type := some (.basic .tbits), size := some 3, values := [] }),
  (bl "0100110", { name := "ClientBodyMatDuration", type := some (.basic .tint), size := none, values := [] }),
  (bl "0101110", { name := "LastTakeHitInfo", type := some (.basic .tbits), size := some 139, values := [] }),
  (bl "1001001", { name := "CurrentWeaponAttachmentClass", type := some (.basic .tint), size := none, values := [] }),
  (bl "1100101", { name := "r_fPowerPoolRechargeRate", type := some (.basic .tint), size := none, values := [] }),
  (bl "0010101", { name := "r_fMaxPowerPool", type := some (.basic .tint), size := none, values := [] }),
  (bl "1010101", { name := "r_fCurrentPowerPool", type := some (.basic .tint), size := none, values := [] }),
  (bl "1000011", { name := "r_bDetectedByEnemyScanner", type := some (.basic .tbool), size := none, values := [] }),
  (bl "1100011", { name := "r_bIsInvulnerable", type := some (.basic .tbits), size := some 1, values := [] }),
  (bl "1110011", { name := "r_bIsSkiing", type := some (.basic .tbits), size := some 1, values := [] }),
  (bl "0111011", { name := "RPC ClientUpdateHUDHealth", type := some (.params [Member.mk "NewHealth" (some (.basic .tint)) (none), Member.mk "NewHealthMax" (some (.basic .tint)) (none)]), size := none, values := [] }),
  (bl "1111011", { name := "RPC PlayHardLandingEffect", type := some (.basic .tbits), size := some 53, values := [] }),
  (bl "1100111", { name := "r_nFlashReloadSecondaryWeapon", type := some (.basic .tbits), size := some 8, values := [] })]

/-- Property table `TrDeviceProps` (src/gameclient/udk.py, ParserState.__init__). -/
def pTrDeviceProps : List (Bits × PropEntry) := [
  (bl "100001", { name := "r_AmmoCount", type := some (.basic .tbits), size := some 64, values := [] }),
  (bl "010001", { name := "r_bIsReloading", type := some (.basic .tbool), size := none, values := [] }),
  (bl "110001", { name := "r_bReadyToFire", type := some (.basic .tbool), size := none, values := [] }),
  (bl "001001", { name := "r_eEquipAt", type := some (.basic .tbits), size := some 4, values := [] }),
  (bl "111101", { name := "Owner", type := some (.basic .tbits), size := some 10, values := [] }),
  (bl "101011", { name := "InvManager", type := some (.basic .tbits), size := some 10, values := [] }),
  (bl "011011", { name := "Inventory", type := some (.basic .tbits), size := some 10, values := [] })]

/-- Property table `TrRadarStationProps` (src/gameclient/udk.py, ParserState.__init__). -/
def pTrRadarStationProps : List (Bits × PropEntry) := [
  (bl "000111", { name := "r_bReset", type := some (.basic .tbits), size := some 7, values := [] }),
  (bl "010111", { name := "r_ShieldHealth", type := some (.basic .tbits), size := some 31, values := [] })]

/-- Property table `TrInventoryStationProps` (src/gameclient/udk.py, ParserState.__init__). -/
def pTrInventoryStationProps : List (Bits × PropEntry) := [
  (bl "000111", { name := "r_bReset", type := some (.basic .tbits), size := some 7, values := [] })]

/-- Property table `TrRepairStationProps` (src/gameclient/udk.py, ParserState.__init__). -/
def pTrRepairStationProps : List (Bits × PropEntry) := [
  (bl "000111", { name := "r_bReset", type := some (.basic .tbits), size := some 7, values := [] })]

/-- Property table `TrInventoryStationCollisionProps` (src/gameclient/udk.py, ParserState.__init__). -/
def pTrInventoryStationCollisionProps : List (Bits × PropEntry) := [
]

/-- Property table `TrPowerGeneratorProps` (src/gameclient/udk.py, ParserState.__init__). -/
def pTrPowerGeneratorProps : List (Bits × PropEntry) := [
  (bl "111110", { name := "r_MaxHealth", type := some (.basic .tbits), size := some 31, values := [] })]

/-- Property table `TrPlayerControllerProps` (src/gameclient/udk.py, ParserState.__init__). -/
def pTrPlayerControllerProps : List (Bits × PropEntry) := [
  (bl "01000000", { name := "bCollideWorld", type := some (.basic .tbits), size := some 2, values := [] }),
  (bl "11000000", { name := "RPC ClientMatchOver", type := some (.params [Member.mk "unknown" (some (.basic .tflag)) (none), Member.mk "Winner" (some (.basic .tint)) (none), Member.mk "WinnerName" (some (.basic .tstr)) (none)]), size := none, values := [] }),
  (bl "00100000", { name := "!!!!!!!!!INTERESTING Unknown INTERESTING!!!!!!!!!", type := some (.basic .tbits), size := some 10, values := [] }),
  (bl "00110000", { name := "RPC ClientSetLastDamagerInfo", type := some (.basic .tbits), size := some 35, values := [] }),
  (bl "10101000", { name := "PlayerReplicationInfo", type := some (.basic .tbits), size := some 11, values := [] }),
  (bl "01100000", { name := "RPC UpdateMatchCountdown", type := some (.params [Member.mk "unknown" (some (.basic .tflag)) (none), Member.mk "Seconds" (some (.basic .tint)) (none)]), size := none, values := [] }),
  (bl "01101000", { name := "Pawn", type := some (.basic .tbits), size := some 11, values := [] }),
  (bl "00011000", { name := "RPC ClientSetRotation", type := some (.basic .tbits), size := some 2, values := [] }),
  (bl "01011000", { name := "RPC ClientSwitchToBestWeapon", type := some (.basic .tbits), size := some 1, values := [] }),
  (bl "00100100", { name := "RPC ClientGotoState", type := some (.params [Member.mk "NewState" (some (.basic .tbits)) (some 11), Member.mk "NewLabel" (some (.basic .tbits)) (some 11)]), size := none, values := [] }),
  (bl "01100100", { name := "RPC GivePawn", type := some (.params [Member.mk "NewPawn" (some (.basic .tbits)) (some 11)]), size := none, values := [] }),
  (bl "10010100", { name := "RPC ReceiveLocalizedMessage", type := some (.params [Member.mk "Message" (some (.basic .tint)) (none), Member.mk "Switch" (some (.basic .tint)) (none), Member.mk "RelatedPRI_1" (some (.basic .tbits)) (some 11), Member.mk "RelatedPRI_2" (some (.basic .tint)) (none), Member.mk "OptionalObject" (some (.basic .tbits)) (some 11)]), size := none, values := [] }),
  (bl "11011100", { name := "RPC VeryShortClientAdjustPosition", type := some (.params [Member.mk "TimeStamp" (some (.basic .tfloat)) (none), Member.mk "NewLocX" (some (.basic .tfloat)) (none), Member.mk "NewLocY" (some (.basic .tfloat)) (none), Member.mk "NewLocZ" (some (.basic .tfloat)) (none), Member.mk "newBase" (some (.basic .tbits)) (some 32)]), size := none, values := [] }),
  (bl "00111100", { name := "RPC ShortClientAdjustPosition", type := some (.params [Member.mk "TimeStamp" (some (.basic .tfloat)) (none), Member.mk "newState" (some (.basic .tbits)) (some 11), Member.mk "newPhysics" (some (.basic .tbits)) (some 4), Member.mk "NewLocX" (some (.basic .tfloat)) (none), Member.mk "NewLocY" (some (.basic .tfloat)) (none), Member.mk "NewLocZ" (some (.basic .tfloat)) (none), Member.mk "newBase" (some (.basic .tbits)) (some 32)]), size := none, values := [] }),
  (bl "01111100", { name := "RPC ClientAckGoodMove", type := some (.params [Member.mk "TimeStamp" (some (.basic .tfloat)) (none)]), size := none, values := [] }),
  (bl "11111100", { name := "RPC ClientAdjustPosition", type := some (.params [Member.mk "TimeStamp" (some (.basic .tfloat)) (none), Member.mk "newState" (some (.basic .tbits)) (some 11), Member.mk "newPhysics" (some (.basic .tbits)) (some 4), Member.mk "NewLocX" (some (.basic .tfloat)) (none), Member.mk "NewLocY" (some (.basic .tfloat)) (none), Member.mk "NewLocZ" (some (.basic .tfloat)) (none), Member.mk "NewVelX" (some (.basic .tfloat)) (none), Member.mk "NewVelY" (some (.basic .tfloat)) (none), Member.mk "NewVelZ" (some (.basic .tfloat)) (none), Member.mk "newBase" (some (.basic .tbits)) (some 32)]), size := none, values := [] }),
  (bl "00110010", { name := "RPC ClientGameEnded", type := some (.basic .tbits), size := some 2, values := [] }),
  (bl "10110010", { name := "RPC ClientSetViewTarget", type := some (.basic .tbits), size := some 81, values := [] }),
  (bl "11101010", { name := "RPC ClientPlayForceFeedbackWaveform", type := some (.params [Member.mk "FFWaveform" (some (.basic .tint)) (none), Member.mk "FFWaveformInstigator" (none) (none)]), size := none, values := [] }),
  (bl "10110110", { name := "RPC ClientWriteLeaderboardStats", type := some (.params [Member.mk "OnlineStatsWriteClass" (none) (none)]), size := none, values := [] }),
  (bl "11101110", { name := "RPC ClientEndOnlineGame", type := some (.basic .tflag), size := none, values := [] }),
  (bl "01001001", { name := "RPC PlayStartupMessage", type := some (.params [Member.mk "StartupStage" (some (.basic .tbits)) (some 8)]), size := none, values := [] }),
  (bl "11001001", { name := "RPC ClientPlayTakeHit", type := some (.basic .tbits), size := some 43, values := [] }),
  (bl "00101011", { name := "RPC ClientEndTeamSelect", type := some (.params [Member.mk "RequestedTeamNum" (some (.basic .tint)) (none)]), size := none, values := [] }),
  (bl "10111101", { name := "r_nCurrentCredits", type := some (.basic .tbits), size := some 32, values := [] }),
  (bl "01000011", { name := "r_bNeedLoadout", type := some (.basic .tbool), size := none, values := [] }),
  (bl "11000011", { name := "r_bNeedTeam", type := some (.basic .tbool), size := none, values := [] }),
  (bl "11100011", { name := "RPC ClientSeekingMissileTargetingSelfEvent", type := some (.params [Member.mk "EventSwitch" (some (.basic .tint)) (none)]), size := none, values := [] })]

/-- Property table `TrBaseTurretProps` (src/gameclient/udk.py, ParserState.__init__). -/
def pTrBaseTurretProps : List (Bits × PropEntry) := [
  (bl "010001", { name := "r_TargetPawn", type := some (.basic .tbits), size := some 11, values := [] }),
  (bl "110001", { name := "r_FlashCount", type := some (.basic .tbits), size := some 8, values := [] }),
  (bl "000111", { name := "r_bReset", type := some (.basic .tbits), size := some 7, values := [] }),
  (bl "010111", { name := "r_ShieldHealth", type := some (.basic .tbits), size := some 31, values := [] })]

/-- Property table `TrProj_BaseTurretProps` (src/gameclient/udk.py, ParserState.__init__). -/
def pTrProj_BaseTurretProps : List (Bits × PropEntry) := [
  (bl "011100", { name := "Rotation", type := some (.basic .tbits), size := some 18, values := [] }),
  (bl "000001", { name := "Velocity", type := some (.basic .tbits), size := some 42, values := [] })]

/-- Property table `TrProj_SpinfusorProps` (src/gameclient/udk.py, ParserState.__init__). -/
def pTrProj_SpinfusorProps : List (Bits × PropEntry) := [
  (bl "10000", { name := "bCollideActors", type := some (.basic .tbool), size := none, values := [] }),
  (bl "11100", { name := "bTearOff", type := some (.basic .tbool), size := none, values := [] }),
  (bl "10110", { name := "Base", type := some (.basic .tbits), size := some 31, values := [] }),
  (bl "10011", { name := "r_vSpawnLocation", type := some (.basic .tbits), size := some 52, values := [] })]

/-- Property table `TrDroppedPickupProps` (src/gameclient/udk.py, ParserState.__init__). -/
def pTrDroppedPickupProps : List (Bits × PropEntry) := [
  (bl "101101", { name := "InventoryClass", type := some (.basic .tbits), size := some 31, values := [] }),
  (bl "011101", { name := "Base", type := some (.basic .tbits), size := some 30, values := [] }),
  (bl "110011", { name := "Rotation", type := some (.basic .tbits), size := some 10, values := [] }),
  (bl "101011", { name := "bFadeOut", type := some (.basic .tflag), size := none, values := [] })]

/-- Property table `TrGameReplicationInfoProps` (src/gameclient/udk.py, ParserState.__init__). -/
def pTrGameReplicationInfoProps : List (Bits × PropEntry) := [
  (bl "000000", { name := "netflags", type := some (.basic .tbits), size := some 5, values := [] }),
  (bl "011000", { name := "m_Flags", type := some (.basic .tbits), size := some 20, values := [] }),
  (bl "101000", { name := "r_ServerConfig", type := some (.basic .tbits), size := some 12, values := [] }),
  (bl "111000", { name := "FlagReturnTime", type := some (.basic .tbits), size := some 41, values := [] }),
  (bl "011010", { name := "ServerName", type := some (.basic .tstr), size := none, values := [] }),
  (bl "111010", { name := "TimeLimit", type := some (.basic .tint), size := none, values := [] }),
  (bl "000110", { name := "GoalScore", type := some (.basic .tint), size := none, values := [] }),
  (bl "100110", { name := "RemainingMinute", type := some (.basic .tint), size := none, values := [] }),
  (bl "010110", { name := "ElapsedTime", type := some (.basic .tint), size := none, values := [] }),
  (bl "110110", { name := "RemainingTime", type := some (.basic .tint), size := none, values := [] }),
  (bl "101110", { name := "bMatchIsOver", type := some (.basic .tbool), size := none, values := [] }),
  (bl "111110", { name := "bStopCountDown", type := some (.basic .tbool), size := none, values := [] }),
  (bl "000001", { name := "GameClass", type := some (.basic .tint), size := none, values := [] }),
  (bl "100001", { name := "MessageOfTheDay", type := some (.basic .tstr), size := none, values := [] }),
  (bl "010001", { name := "RulesString", type := some (.basic .tstr), size := none, values := [] }),
  (bl "001001", { name := "FlagState", type := some (.basic .tbits), size := some 10, values := [(bl "0000000000", "Enemy flag on stand"), (bl "0000000001", "Enemy flag taken"), (bl "0000000011", "Enemy flag dropped"), (bl "1000000000", "Own flag on stand"), (bl "1000000001", "Own flag taken"), (bl "1000000011", "Own flag dropped")] }),
  (bl "111001", { name := "bAllowKeyboardAndMouse", type := some (.basic .tbool), size := none, values := [] }),
  (bl "010101", { name := "bWarmupRound", type := some (.basic .tbool), size := none, values := [] }),
  (bl "001101", { name := "MinNetPlayers", type := some (.basic .tint), size := none, values := [] }),
  (bl "101111", { name := "r_nBlip", type := some (.basic .tbits), size := some 8, values := [] })]

/-- Property table `TrFlagCTFProps` (src/gameclient/udk.py, ParserState.__init__). -/
def pTrFlagCTFProps : List (Bits × PropEntry) := [
  (bl "10000", { name := "bCollideActors", type := some (.basic .tbool), size := none, values := [] }),
  (bl "11000", { name := "bHardAttach", type := some (.basic .tbool), size := none, values := [] }),
  (bl "00010", { name := "Physics", type := some (.basic .tbits), size := some 4, values := [] }),
  (bl "00001", { name := "Location", type := some (.basic .tbits), size := some 52, values := [] }),
  (bl "10001", { name := "RelativeLocation", type := some (.basic .tbits), size := some 22, values := [] }),
  (bl "11001", { name := "Rotation", type := some (.basic .tbits), size := some 11, values := [] }),
  (bl "00101", { name := "Velocity", type := some (.basic .tbits), size := some 40, values := [] }),
  (bl "10111", { name := "Base", type := some (.basic .tbits), size := some 10, values := [] }),
  (bl "01000", { name := "bCollideWorld", type := some (.basic .tbool), size := none, values := [] }),
  (bl "01101", { name := "bHome", type := some (.basic .tbool), size := none, values := [] }),
  (bl "01001", { name := "RelativeRotation", type := some (.basic .tbits), size := some 27, values := [] }),
  (bl "11101", { name := "Team", type := some (.basic .tbits), size := some 11, values := [] }),
  (bl "00011", { name := "HolderPRI", type := some (.basic .tbits), size := some 11, values := [] })]

/-- Property table `TrPlayerReplicationInfoProps` (src/gameclient/udk.py, ParserState.__init__). -/
def pTrPlayerReplicationInfoProps : List (Bits × PropEntry) := [
  (bl "000000", { name := "netflags", type := some (.basic .tbits), size := some 5, values := [] }),
  (bl "000010", { name := "Location", type := some (.basic .tbits), size := some 51, values := [] }),
  (bl "110010", { name := "Rotation", type := some (.basic .tbits), size := some 10, values := [] }),
  (bl "101010", { name := "UniqueId", type := some (.basic .tbits), size := some 64, values := [] }),
  (bl "011010", { name := "Unknown field", type := some (.basic .tint), size := none, values := [] }),
  (bl "110110", { name := "bWaitingPlayer", type := some (.basic .tbool), size := none, values := [] }),
  (bl "000110", { name := "bBot", type := some (.basic .tbool), size := none, values := [] }),
  (bl "101110", { name := "bIsSpectator", type := some (.basic .tbool), size := none, values := [] }),
  (bl "111110", { name := "Team (11 bits)", type := some (.basic .tbits), size := some 11, values := [(bl "10001000000", "DiamondSword"), (bl "11110000000", "BloodEagle")] }),
  (bl "000001", { name := "PlayerID", type := some (.basic .tint), size := none, values := [] }),
  (bl "100001", { name := "PlayerName", type := some (.basic .tstr), size := none, values := [] }),
  (bl "110001", { name := "Deaths", type := some (.basic .tint), size := none, values := [] }),
  (bl "001001", { name := "Score", type := some (.basic .tint), size := none, values := [] }),
  (bl "011001", { name := "CharClassInfo", type := some (.basic .tint), size := none, values := [] }),
  (bl "010101", { name := "bHasFlag", type := some (.basic .tbool), size := none, values := [] }),
  (bl "101101", { name := "r_bSkinId", type := some (.basic .tint), size := none, values := [] }),
  (bl "111101", { name := "r_EquipLevels", type := some (.basic .tbits), size := some 48, values := [] }),
  (bl "000011", { name := "r_VoiceClass", type := some (.basic .tint), size := none, values := [] }),
  (bl "001011", { name := "m_nPlayerClassId", type := some (.basic .tint), size := none, values := [] }),
  (bl "101011", { name := "m_nCreditsEarned", type := some (.basic .tint), size := none, values := [] }),
  (bl "000111", { name := "m_nPlayerIconIndex", type := some (.basic .tint), size := none, values := [] }),
  (bl "001111", { name := "m_PendingBaseClass", type := some (.basic .tint), size := none, values := [] }),
  (bl "101111", { name := "m_CurrentBaseClass", type := some (.basic .tint), size := none, values := [] })]

/-- Property table `TrServerSettingsInfoProps` (src/gameclient/udk.py, ParserState.__init__). -/
def pTrServerSettingsInfoProps : List (Bits × PropEntry) := [
]

/-- Property table `FirstClientObjectProps` (src/gameclient/udk.py, ParserState.__init__). -/
def pFirstClientObjectProps : List (Bits × PropEntry) := [
  (bl "000100", { name := "prop8", type := some (.basic .tbits), size := some 162, values := [] })]

/-- Property table `FirstServerObjectProps` (src/gameclient/udk.py, ParserState.__init__). -/
def pFirstServerObjectProps : List (Bits × PropEntry) := [
  (bl "10000000", { name := "mysteryproperty3", type := some (.basic .tmy3), size := none, values := [] }),
  (bl "11000000", { name := "mysteryproperty5", type := some (.struct [Member.mk "unknown" (some (.basic .tint)) (none), Member.mk "unknown2" (some (.basic .tstr)) (none)]), size := none, values := [] }),
  (bl "00100000", { name := "mysteryproperty4", type := some (.struct [Member.mk "unknown" (some (.basic .tbits)) (some 88), Member.mk "server url" (some (.basic .tstr)) (none)]), size := none, values := [] }),
  (bl "11100000", { name := "mysteryproperty1", type := some (.basic .tmy1), size := none, values := [] }),
  (bl "11010000", { name := "mysteryproperty2", type := some (.basic .tmy2), size := none, values := [] })]

/-- Property table `MatineeActorProps` (src/gameclient/udk.py, ParserState.__init__). -/
def pMatineeActorProps : List (Bits × PropEntry) := [
  (bl "00000", { name := "netflags", type := some (.basic .tbits), size := some 6, values := [] }),
  (bl "11101", { name := "Position", type := some (.basic .tbits), size := some 32, values := [] }),
  (bl "00011", { name := "PlayRate", type := some (.basic .tint), size := none, values := [] }),
  (bl "11011", { name := "bIsPlaying", type := some (.basic .tbool), size := none, values := [] }),
  (bl "00111", { name := "InterpAction", type := some (.basic .tbits), size := some 32, values := [] })]

/-- Property table `UTTeamInfoFlags` (src/gameclient/udk.py, ParserState.__init__). -/
def pUTTeamInfoFlags : List (Bits × PropEntry) := [
  (bl "00000", { name := "netflags", type := some (.basic .tbits), size := some 6, values := [] }),
  (bl "10101", { name := "TeamIndex", type := some (.basic .tint), size := none, values := [] }),
  (bl "00011", { name := "TeamFlag", type := some (.basic .tbits), size := some 11, values := [] }),
  (bl "10011", { name := "HomeBase", type := some (.basic .tint), size := none, values := [] })]

/-- Property table `WorldInfo2Props` (src/gameclient/udk.py, ParserState.__init__). -/
def pWorldInfo2Props : List (Bits × PropEntry) := [
  (bl "00011", { name := "TimeDilation", type := some (.basic .tint), size := none, values := [] }),
  (bl "01101", { name := "WorldGravityZ", type := some (.basic .tint), size := none, values := [] })]

/-- The static class registry `self.class_dict` of `ParserState.__init__` (src/gameclient/udk.py lines 691-745), in source order; the `idsize` field mirrors the `idsize` dict entry, absent (`none`) until first binding. -/
def initClassDict : List (Option Bits × ClassDescr) := [
  (none, { name := "FirstServerObject", props := pFirstServerObjectProps }),
  (some (bl "00001000100000000111111011011000"), { name := "FirstClientObject", props := pFirstClientObjectProps }),
  (some (bl "10001000000000000000000000000000"), { name := "FirstServerObject", props := pFirstServerObjectProps }),
  (some (bl "00101100100100010000000000000000"), { name := "MatineeActor", props := pMatineeActorProps }),
  (some (bl "00011100001100100100000000000000"), { name := "TrBaseTurret_BloodEagle", props := pTrBaseTurretProps }),
  (some (bl "00111100001100100100000000000000"), { name := "TrBaseTurret_DiamondSword", props := pTrBaseTurretProps }),
  (some (bl "01010111000101011110000000000000"), { name := "TrCTFBase_BloodEagle", props := [] }),
  (some (bl "00110111000101011110000000000000"), { name := "TrCTFBase_DiamondSword", props := [] }),
  (some (bl "01111000100110010100000000000000"), { name := "TrDevice_Blink", props := pTrDeviceProps }),
  (some (bl "01000011100110010100000000000000"), { name := "TrDevice_ConcussionGrenade", props := pTrDeviceProps }),
  (some (bl "01100101110110010100000000000000"), { name := "TrDevice_GrenadeLauncher_Light", props := pTrDeviceProps }),
  (some (bl "00111001001110010100000000000000"), { name := "TrDevice_Twinfusor", props := pTrDeviceProps }),
  (some (bl "01001000101110010100000000000000"), { name := "TrDevice_LaserTargeter", props := pTrDeviceProps }),
  (some (bl "01101100101110010100000000000000"), { name := "TrDevice_LightAssaultRifle", props := pTrDeviceProps }),
  (some (bl "01111100101110010100000000000000"), { name := "TrDevice_LightSpinfusor", props := pTrDeviceProps }),
  (some (bl "00100111101110010100000000000000"), { name := "TrDevice_Melee_DS", props := pTrDeviceProps }),
  (some (bl "01011001000001010100000000000000"), { name := "TrDevice_Spinfusor_100X", props := pTrDeviceProps }),
  (some (bl "01011000100001010100000000000000"), { name := "TrDevice_UtilityPack_Soldier", props := pTrDeviceProps }),
  (some (bl "01110101110110010100000000000000"), { name := "TrDevice_GrenadeXL", props := pTrDeviceProps }),
  (some (bl "01001011001001010100000000000000"), { name := "TrDroppedPickup", props := pTrDroppedPickupProps }),
  (some (bl "00100100101111010100000000000000"), { name := "TrFlagCTF_BloodEagle", props := pTrFlagCTFProps }),
  (some (bl "00110100101111010100000000000000"), { name := "TrFlagCTF_DiamondSword", props := pTrFlagCTFProps }),
  (some (bl "01110001101110110100000000000000"), { name := "TrGameReplicationInfo", props := pTrGameReplicationInfoProps }),
  (some (bl "01101101010100001100000000000000"), { name := "TrInventoryManager", props := pTrInventoryManagerProps }),
  (some (bl "01010000100101011110000000000000"), { name := "TrInventoryStation_BloodEagle0101?", props := pTrInventoryStationProps }),
  (some (bl "01000000100101011110000000000000"), { name := "TrInventoryStation_BloodEagle0100?", props := pTrInventoryStationProps }),
  (some (bl "01100000100101011110000000000000"), { name := "TrInventoryStation_BloodEagle0110?", props := pTrInventoryStationProps }),
  (some (bl "00100000100101011110000000000000"), { name := "TrInventoryStation_BloodEagle0010?", props := pTrInventoryStationProps }),
  (some (bl "01001000100101011110000000000000"), { name := "TrInventoryStation_DiamondSword", props := pTrInventoryStationProps }),
  (some (bl "01001011110100001100000000000000"), { name := "TrInventoryStationCollision", props := pTrInventoryStationCollisionProps }),
  (some (bl "00110001010000010100000000000000"), { name := "TrPlayerController", props := pTrPlayerControllerProps }),
  (some (bl "00111010100001100100000000000000"), { name := "TrPlayerPawn", props := pTrPlayerPawnProps }),
  (some (bl "00000110101111001100000000000000"), { name := "TrPlayerReplicationInfo", props := pTrPlayerReplicationInfoProps }),
  (some (bl "00111100100101011110000000000000"), { name := "TrPowerGenerator_BloodEagle", props := pTrPowerGeneratorProps }),
  (some (bl "01111100100101011110000000000000"), { name := "TrPowerGenerator_DiamondSword", props := pTrPowerGeneratorProps }),
  (some (bl "01111010010000101100000000000000"), { name := "TrProj_BaseTurret", props := pTrProj_BaseTurretProps }),
  (some (bl "00101010111000101100000000000000"), { name := "TrProj_Spinfusor_100X", props := pTrProj_SpinfusorProps }),
  (some (bl "01110010100010101100000000000000"), { name := "TrRadarStation_BloodEagle", props := pTrRadarStationProps }),
  (some (bl "01001010100010101100000000000000"), { name := "TrRadarStation_DiamondSword", props := pTrRadarStationProps }),
  (some (bl "00000000110010101100000000000000"), { name := "TrRepairStationCollision", props := pTrRepairStationProps }),
  (some (bl "00010011100001101100000000000000"), { name := "TrServerSettingsInfo", props := pTrServerSettingsInfoProps }),
  (some (bl "00000011110100001100000000000000"), { name := "TrStationCollision", props := [] }),
  (some (bl "00100010100101011110000000000000"), { name := "TrRepairStation_BloodEagle0010?", props := pTrRepairStationProps }),
  (some (bl "01010010100101011110000000000000"), { name := "TrRepairStation_BloodEagle0101?", props := pTrRepairStationProps }),
  (some (bl "00110010100101011110000000000000"), { name := "TrRepairStation_BloodEagle0011?", props := pTrRepairStationProps }),
  (some (bl "01100010100101011110000000000000"), { name := "TrRepairStation_BloodEagle0110?", props := pTrRepairStationProps }),
  (some (bl "01011010100101011110000000000000"), { name := "TrRepairStation_DiamondSword", props := pTrRepairStationProps }),
  (some (bl "00100110100101011110000000000000"), { name := "TrVehicleStation_BloodEagle", props := [] }),
  (some (bl "01100110100101011110000000000000"), { name := "TrVehicleStation_DiamondSword", props := [] }),
  (some (bl "00100111010010011000000000000000"), { name := "UTTeamInfo", props := pUTTeamInfoFlags }),
  (some (bl "00000101100101011110000000000000"), { name := "WorldInfo1", props := [] }),
  (some (bl "01010101111001011110000000000000"), { name := "WorldInfo2", props := pWorldInfo2Props })]

/-- Fresh per-session parser state: `ParserState.__init__` also sets `instance_count` and `channels` to empty dicts. -/
def initState : ParserState := { class_dict := initClassDict, instance_count := [], channels := [] }

/-- Iterated introduction events: run the binding block of
`PayloadData.frombitarray` on a list of (channel, lookup key) pairs,
collecting the produced instance names (stopping at a failed lookup, which
in Python is a fatal `KeyError`). -/
def introductionNames (st : ParserState) :
    List (Nat × Option Bits) → List String
  | [] => []
  | (ch, key) :: rest =>
    match bindChannel st ch key with
    | none => []
    | some (_, iname, st') => iname :: introductionNames st' rest

/-- A parser state with channel 0 bound to the root class, as produced by
a first channel-0 payload; used to witness the bound-channel claims. -/
def boundState : ParserState :=
  { class_dict := initClassDict,
    instance_count := [("FirstServerObject", 0)],
    channels := [(0, ⟨⟨"FirstServerObject", pFirstServerObjectProps, some 8⟩,
      "FirstServerObject_0"⟩)] }

/-- The single-ack part used by the C3 inputs: tag bit 1, then
`acknr = 42`. -/
def c3ack : Bits := true :: natToBits 42 14

/-- A packet of seven acks: `14 + 7*15 + 1 = 120` parsed bits — a parse
that ends exactly on a byte boundary — followed by nothing. -/
def c3alignedBits : Bits :=
  natToBits 1 14 ++ c3ack ++ c3ack ++ c3ack ++ c3ack ++ c3ack ++ c3ack ++
    c3ack ++ [true]

/-- Well-formedness of a class descriptor for round-trip purposes: the
property-key widths and the derived id width fit in the 32 bits that
`toint` / `int2bitarray` handle exactly.  (Every table in
`ParserState.__init__` uses key widths 5..8.) -/
def wfClass (c : ClassDescr) : Prop :=
  (∀ kv ∈ c.props, kv.1.length ≤ 32) ∧ (∀ w, c.idsize = some w → w ≤ 32)

/-- Well-formedness of a parser state: every registered and every bound
class descriptor is well-formed. -/
def wfState (st : ParserState) : Prop :=
  (∀ kv ∈ st.class_dict, wfClass kv.2) ∧
  (∀ cb ∈ st.channels, wfClass cb.2.class_)

/-- A payload that decoded without capturing a `ParseError`. -/
def payloadClean (p : PayloadData) : Prop := p.bitsleftreason = none

/-- A packet part all of whose payloads decoded without captured
errors. -/
def partClean : Part → Prop
  | .ack _ => True
  | .data d =>
    match d.channel_data with
    | none => True
    | some cd => payloadClean cd.payload

/-- One gain payload for the C1 counterexample: on bound channel 0, body =
property id `11000000` (`mysteryproperty5`, a struct of an Int32 and a
string), the int 7, then a string whose 32-bit size field says 2 and whose
single byte 65 is cut short by the payload boundary: `getstring` consumes
the 8 remaining bits but the re-encoding emits the full byte *plus* the
zero terminator byte — 8 bits more than were consumed. -/
def c1gainPart : Bits :=
  [false] ++ bl "00" ++ natToBits 0 10 ++ natToBits 80 14 ++
    bl "11000000" ++ natToBits 7 32 ++ natToBits 2 32 ++ natToBits 65 8

/-- The loss payload for the C1 counterexample: property id `11100000`
(`mysteryproperty1`), whose first Int32 consumes 32 bits before the second
Int32 read fails; the exception handler replaces the partial value with an
empty placeholder, so those 32 consumed bits are missing from the
re-encoding while `bitsleft` is empty. -/
def c1lossPart : Bits :=
  [false] ++ bl "00" ++ natToBits 0 10 ++ natToBits 40 14 ++
    bl "11100000" ++ natToBits 7 32

/-- The C1 counterexample packet (576 bits, 72 bytes): bind channel 0
(32-bit ignored class key), four gain payloads (+8 bits of re-encoding
each), one loss payload (−32), terminator, 7 padding bits.  The re-encoded
length matches the input length — which is all `Packet.frombitarray`'s
self-check compares — but the bits differ. -/
def c1cexBits : Bits :=
  natToBits 0 14 ++
    ([false] ++ bl "00" ++ natToBits 0 10 ++ natToBits 32 14 ++
      List.replicate 32 false) ++
    c1gainPart ++ c1gainPart ++ c1gainPart ++ c1gainPart ++ c1lossPart ++
    [true] ++ List.replicate 7 false

/-- "`enc` re-encodes the prefix of `bits` before `rest`, possibly `k` bits
too long": the length bookkeeping always holds, and when the decode gained
nothing (`k = 0`) the re-encoding is positionally exact.  String fields can
gain bits only at the end of a payload, so inside a packet the gains sit in
the middle of the stream; this length-first invariant is what composes
across payload boundaries, and the packet's total-length self-check then
forces `k = 0` everywhere. -/
def reencodes (bits enc rest : Bits) : Prop :=
  ∃ k, enc.length + rest.length = bits.length + k ∧
    (k = 0 → enc ++ rest = bits)

/-- The class-id section of `PayloadData.tobitarray` (emitted only when an
`ObjectClass` with a decoded id is attached). -/
def encClassField : Option ObjClass → Bits
  | none => []
  | some o => match o.classid with
              | none => []
              | some cid => int2bitarray cid 32

/-- The state a body outcome carries (none for an uncaught exception). -/
def resultState : BodyResult → Option ParserState
  | .ok _ _ _ _ st => some st
  | .captured _ _ _ _ _ st => some st
  | .fatal _ => none

/-! ## Basic facts about the bit-level primitives -/

theorem bitsToNat_lt (bs : Bits) : bitsToNat bs < 2 ^ bs.length := by
  induction bs with
  | nil => simp [bitsToNat]
  | cons b bs ih =>
    have hb : (if b then (1 : Nat) else 0) ≤ 1 := by cases b <;> simp
    rw [bitsToNat, List.length_cons, pow_succ]
    omega

theorem natToBits_bitsToNat (bs : Bits) :
    natToBits (bitsToNat bs) bs.length = bs := by
  induction bs with
  | nil => rfl
  | cons b bs ih =>
    cases b
    · show natToBits (0 + 2 * bitsToNat bs) (bs.length + 1) = false :: bs
      rw [natToBits]
      congr 1
      · have h : (0 + 2 * bitsToNat bs) % 2 = 0 := by omega
        simp [h]
      · rw [show (0 + 2 * bitsToNat bs) / 2 = bitsToNat bs by omega, ih]
    · show natToBits (1 + 2 * bitsToNat bs) (bs.length + 1) = true :: bs
      rw [natToBits]
      congr 1
      · have h : (1 + 2 * bitsToNat bs) % 2 = 1 := by omega
        simp [h]
      · rw [show (1 + 2 * bitsToNat bs) / 2 = bitsToNat bs by omega, ih]

theorem natToBits_length (n w : Nat) : (natToBits n w).length = w := by
  induction w generalizing n with
  | zero => rfl
  | succ w ih => simp [natToBits, ih]

theorem toint_of_le {bs : Bits} (h : bs.length ≤ 32) : toint bs = bitsToNat bs := by
  rw [toint, List.take_of_length_le h]

theorem int2bitarray_toint {bs : Bits} (h : bs.length ≤ 32) :
    int2bitarray (toint bs) bs.length = bs := by
  rw [toint_of_le h, int2bitarray, Nat.min_eq_left h, natToBits_bitsToNat]

theorem int2bitarray_length {n w : Nat} (h : w ≤ 32) :
    (int2bitarray n w).length = w := by
  rw [int2bitarray, Nat.min_eq_left h, natToBits_length]

theorem getnbits_eq_ok {n : Nat} {bits c r : Bits}
    (h : getnbits n bits = .ok (c, r)) :
    c = bits.take n ∧ r = bits.drop n ∧ n ≤ bits.length := by
  unfold getnbits at h
  split at h
  · exact absurd h (by simp)
  · next hn =>
    simp only [Except.ok.injEq, Prod.mk.injEq] at h
    exact ⟨h.1.symm, h.2.symm, by omega⟩

theorem getnbits_parts {n : Nat} {bits c r : Bits}
    (h : getnbits n bits = .ok (c, r)) :
    c ++ r = bits ∧ c.length = n := by
  obtain ⟨hc, hr, hn⟩ := getnbits_eq_ok h
  subst hc; subst hr
  exact ⟨List.take_append_drop n bits, by
    rw [List.length_take]; omega⟩

theorem getnbits_of_le {n : Nat} {bits : Bits} (h : n ≤ bits.length) :
    getnbits n bits = .ok (bits.take n, bits.drop n) := by
  unfold getnbits
  rw [if_neg (by omega)]

/-! ## Claim C5 — the 14-bit size escape -/

/-- C5 (amended): when bits 10 and 13 of the raw 14-bit size read are both
set, the *last-read* bit — which is the most significant of the 14 under
the little-endian interpretation, and necessarily a 1 — is cut off, the
size becomes the value of the *lower* 13 bits, and the removed bit is
re-injected at the head of the remaining stream.  (The claim's reading
"remove the least-significant bit, the upper 13 bits form the value" is
refuted by `c5_escape_counterexample`.) -/
theorem c5_escape_amended (bits : Bits) (h : 14 ≤ bits.length)
    (h10 : bits.getD 10 false = true) (h13 : bits.getD 13 false = true) :
    readPayloadSize bits =
      .ok ((bitsToNat (bits.take 13), 13), true :: bits.drop 14) := by
  have hlen14 : (bits.take 14).length = 14 := by
    rw [List.length_take]; omega
  have htake : ∀ i : Nat, i < 14 → (bits.take 14).getD i false = bits.getD i false := by
    intro i hi
    simp only [List.getD_eq_getElem?_getD, List.getElem?_take]
    rw [if_pos hi]
  unfold readPayloadSize
  rw [getnbits_of_le (by omega)]
  simp only [htake 10 (by omega), htake 13 (by omega), h10, h13,
    Bool.and_self, if_pos]
  have hdl : (bits.take 14).dropLast = bits.take 13 := by
    rw [List.dropLast_eq_take, hlen14, List.take_take]
    norm_num
  have hlen13 : (bits.take 13).length = 13 := by
    rw [List.length_take]; omega
  rw [hdl, hlen13, toint_of_le (by omega)]

/-- Witness for `c5_escape_amended` at the concrete raw field
`10000000001001` (bits 0, 10, 13 set): effective width 13, size
`1 + 2^10 = 1025`, and the cut bit pushed back. -/
theorem c5_escape_witness :
    readPayloadSize (bl "10000000001001") = .ok ((1025, 13), [true]) :=
  c5_escape_amended (bl "10000000001001") (by decide) (by decide) (by decide)

/-- C5 counterexample: on `10000000001001` the decoder yields size `1025`,
the value of the *lower* 13 bits; the claim's prescription — drop the
least-significant bit and use the upper 13 bits — would give
`bitsToNat (drop 1) = 4608`. -/
theorem c5_escape_counterexample :
    readPayloadSize (bl "10000000001001") = .ok ((1025, 13), [true]) ∧
    bitsToNat ((bl "10000000001001").drop 1) = 4608 ∧ (1025 : Nat) ≠ 4608 :=
  ⟨rfl, rfl, by decide⟩

/-! ## Claim C7 — `Params` encoding with missing members -/

/-- C7 counterexample: a `PropertyValueParams` with one declared member but
empty `presence`/`values` lists encodes to the empty bit string — zero
presence bits, not "exactly one presence bit per declared member". -/
theorem c7_params_counterexample :
    (encValue (.vparams [Member.mk "Winner" (some (.basic .tint)) none]
        [] [])).length ≠
      (List.length [Member.mk "Winner" (some (.basic .tint)) none]) := by
  decide

/-- C7 (amended): `PropertyValueParams.tobitarray` iterates over
`zip_longest(presence, values)` and never consults the declared member
list: (1) after a *successful* decode both lists have exactly one entry
per member (so such values do get one presence bit per member); (2) with
`values` exhausted each remaining presence entry contributes exactly its
own bit (a bare `1` — not an absent `0` — when the entry is true); (3)
with `presence` exhausted each remaining value contributes a single `0`;
members beyond both lists contribute nothing. -/
theorem c7_params_amended :
    (∀ (members : List Member) (bits : Bits) (ps : List Bool)
       (vs : List (Option BasicValue)) (rest : Bits),
       paramsFrom members bits = ((ps, vs), .ok rest) →
       ps.length = members.length ∧ vs.length = members.length) ∧
    (∀ ps : List Bool, encParamsAux ps [] = ps) ∧
    (∀ vs : List (Option BasicValue),
       encParamsAux [] vs = List.replicate vs.length false) := by
  refine ⟨?_, ?_, ?_⟩
  · intro members
    induction members with
    | nil =>
      intro bits ps vs rest h
      simp only [paramsFrom, Prod.mk.injEq] at h
      obtain ⟨⟨h1, h2⟩, _⟩ := h
      subst h1; subst h2; exact ⟨rfl, rfl⟩
    | cons m ms ih =>
      intro bits ps vs rest h
      rw [paramsFrom] at h
      split at h
      · simp at h
      · next pb b1 hg =>
        by_cases hp : pb.headD false = true
        · rw [if_pos hp] at h
          cases hb : parseBasicProperty m.type m.size b1 with
          | error e =>
            rw [hb] at h
            dsimp only at h
            simp only [Prod.mk.injEq] at h
            exact absurd h.2 (by simp)
          | ok vb =>
            obtain ⟨v, b2⟩ := vb
            rw [hb] at h
            dsimp only at h
            rcases hrec : paramsFrom ms b2 with ⟨⟨ps', vs'⟩, r⟩
            rw [hrec] at h
            dsimp only at h
            simp only [Prod.mk.injEq] at h
            obtain ⟨⟨hps, hvs⟩, hr⟩ := h
            subst hps; subst hvs; subst hr
            obtain ⟨l1, l2⟩ := ih b2 ps' vs' rest hrec
            simp [l1, l2]
        · rw [if_neg hp] at h
          rcases hrec : paramsFrom ms b1 with ⟨⟨ps', vs'⟩, r⟩
          rw [hrec] at h
          dsimp only at h
          simp only [Prod.mk.injEq] at h
          obtain ⟨⟨hps, hvs⟩, hr⟩ := h
          subst hps; subst hvs; subst hr
          obtain ⟨l1, l2⟩ := ih b1 ps' vs' rest hrec
          simp [l1, l2]
  · intro ps
    induction ps with
    | nil => rfl
    | cons p ps ih =>
      cases p <;> simp [encParamsAux, ih, encOptValue]
  · intro vs
    induction vs with
    | nil => rfl
    | cons v vs ih => simp [encParamsAux, List.replicate_succ]

/-- Witness for `c7_params_amended`: one `Int32` member decoded present
from bit `1` followed by the 32-bit value 7 gives singleton presence and
value lists. -/
theorem c7_params_witness :
    ([true] : List Bool).length =
      (List.length [Member.mk "Seconds" (some (.basic .tint)) none]) ∧
    ([some (BasicValue.vint 7)] : List (Option BasicValue)).length =
      (List.length [Member.mk "Seconds" (some (.basic .tint)) none]) :=
  c7_params_amended.1 [Member.mk "Seconds" (some (.basic .tint)) none]
    (true :: natToBits 7 32) [true] [some (.vint 7)] [] rfl

/-! ## Association-list (Python dict) lemmas -/

theorem find?_mapUpdate_self {α β : Type} [BEq α] [LawfulBEq α]
    (l : List (α × β)) (k : α) (v : β)
    (h : (l.find? (fun kv => kv.1 == k)).isSome) :
    (l.map (fun kv => if kv.1 == k then (k, v) else kv)).find?
      (fun kv => kv.1 == k) = some (k, v) := by
  induction l with
  | nil => simp at h
  | cons a rest ih =>
    by_cases hk : a.1 == k
    · simp [List.find?_cons, hk]
    · rw [List.find?_cons_of_neg _ (by simp [hk])] at h
      rw [List.map_cons, if_neg (by simp [hk]),
        List.find?_cons_of_neg _ (by simp [hk])]
      exact ih h

theorem find?_mapUpdate_ne {α β : Type} [BEq α] [LawfulBEq α]
    (l : List (α × β)) (k k' : α) (v : β) (h : (k == k') = false) :
    (l.map (fun kv => if kv.1 == k then (k, v) else kv)).find?
      (fun kv => kv.1 == k') = l.find? (fun kv => kv.1 == k') := by
  induction l with
  | nil => rfl
  | cons a rest ih =>
    by_cases hk : a.1 == k
    · have ha : a.1 = k := eq_of_beq hk
      have hak : (a.1 == k') = false := by rw [ha]; exact h
      rw [List.map_cons, if_pos hk,
        List.find?_cons_of_neg _ (by simp [h]),
        List.find?_cons_of_neg _ (by simp [hak])]
      exact ih
    · by_cases hak : a.1 == k'
      · rw [List.map_cons, if_neg (by simp [hk]),
          List.find?_cons_of_pos _ (by simp [hak]),
          List.find?_cons_of_pos _ (by simp [hak])]
      · rw [List.map_cons, if_neg (by simp [hk]),
          List.find?_cons_of_neg _ (by simp [hak]),
          List.find?_cons_of_neg _ (by simp [hak])]
        exact ih

theorem lookupA_updateA_self {α β : Type} [BEq α] [LawfulBEq α]
    (l : List (α × β)) (k : α) (v : β) :
    lookupA (updateA l k v) k = some v := by
  unfold updateA
  split
  · next h =>
    unfold lookupA
    rw [find?_mapUpdate_self l k v h]
    rfl
  · next h =>
    unfold lookupA
    rw [List.find?_append]
    rw [Bool.not_eq_true, ← Bool.not_eq_true, Option.not_isSome_iff_eq_none] at h
    rw [h]
    simp [List.find?_cons]

theorem lookupA_updateA_ne {α β : Type} [BEq α] [LawfulBEq α]
    (l : List (α × β)) (k k' : α) (v : β) (h : k' ≠ k) :
    lookupA (updateA l k v) k' = lookupA l k' := by
  have hkk : (k == k') = false := by
    simp only [beq_eq_false_iff_ne, ne_eq]
    intro hkk; exact h hkk.symm
  unfold updateA
  split
  · unfold lookupA
    rw [find?_mapUpdate_ne l k k' v hkk]
  · unfold lookupA
    rw [List.find?_append]
    have : ([(k, v)].find? (fun kv => kv.1 == k')) = none := by
      simp [List.find?_cons, hkk]
    rw [this]
    cases l.find? (fun kv => kv.1 == k') <;> rfl

theorem lookupA_delA_self {α β : Type} [BEq α] [LawfulBEq α]
    (l : List (α × β)) (k : α) :
    lookupA (delA l k) k = none := by
  unfold lookupA delA
  rw [List.find?_eq_none.mpr]
  · rfl
  · intro kv hmem
    have := List.of_mem_filter hmem
    simp only [bne_iff_ne, ne_eq] at this
    simp [this]

theorem lookupA_delA_ne {α β : Type} [BEq α] [LawfulBEq α]
    (l : List (α × β)) (k k' : α) (h : k' ≠ k) :
    lookupA (delA l k) k' = lookupA l k' := by
  unfold lookupA delA
  induction l with
  | nil => rfl
  | cons a rest ih =>
    by_cases hk : a.1 == k
    · have ha : a.1 = k := eq_of_beq hk
      have hak : (a.1 == k') = false := by
        simp only [beq_eq_false_iff_ne, ne_eq, ha]
        intro hkk; exact h hkk.symm
      rw [List.filter_cons_of_neg (by simp [ha]),
        List.find?_cons_of_neg _ (by simp [hak])]
      exact ih
    · have ha : ¬ a.1 = k := fun hh => hk (by simp [hh])
      by_cases hak : a.1 == k'
      · rw [List.filter_cons_of_pos (by simp [ha]),
          List.find?_cons_of_pos _ (by simp [hak]),
          List.find?_cons_of_pos _ (by simp [hak])]
      · rw [List.filter_cons_of_pos (by simp [ha]),
          List.find?_cons_of_neg _ (by simp [hak]),
          List.find?_cons_of_neg _ (by simp [hak])]
        exact ih

/-! ## Claim C9 — derived property-id width -/

/-- C9: the binding block derives `idsize` as the width of the class's
first property key (insertion order), which for a table whose keys all
share one width `w` is `w`; an empty table defaults to 6. -/
theorem c9_idsize_derivation :
    ∀ (st : ParserState) (ch : Nat) (key : Option Bits) (src cls : ClassDescr)
      (iname : String) (st' : ParserState),
      lookupA st.class_dict key = some src →
      bindChannel st ch key = some (cls, iname, st') →
      (src.props = [] → cls.idsize = some 6) ∧
      (∀ w, src.props ≠ [] → (∀ kv ∈ src.props, kv.1.length = w) →
        cls.idsize = some w) := by
  intro st ch key src cls iname st' hl h
  rw [bindChannel, hl] at h
  dsimp only at h
  simp only [Option.some.injEq, Prod.mk.injEq] at h
  obtain ⟨hcls, _, _⟩ := h
  constructor
  · intro hempty
    rw [← hcls]
    simp only [hempty]
  · intro w hne hall
    rw [← hcls]
    cases hp : src.props with
    | nil => exact absurd hp hne
    | cons kv rest =>
      have hw : kv.1.length = w := hall kv (by rw [hp]; exact List.mem_cons_self kv rest)
      simp only [hp, hw]

/-- Witness for `c9_idsize_derivation`: binding channel 0 on the fresh
state resolves the `None` root key to `FirstServerObject`, whose property
keys are all 8 bits wide, so the derived `idsize` is 8. -/
theorem c9_idsize_witness :
    ∃ cls iname st', bindChannel initState 0 none = some (cls, iname, st') ∧
      cls.idsize = some 8 :=
  ⟨_, _, _, rfl,
    (c9_idsize_derivation initState 0 none
      ⟨"FirstServerObject", pFirstServerObjectProps, none⟩ _ _ _ rfl rfl).2 8
      (List.cons_ne_nil _ _) (by decide)⟩

/-! ## Claim C8 — instance naming -/

theorem introductionNames_replicate (ch : Nat) (key : Option Bits)
    (nm : String) (k : Nat) :
    ∀ (st : ParserState) (c0 : Nat) (src : ClassDescr),
      lookupA st.class_dict key = some src → src.name = nm →
      nextCount st nm = c0 →
      introductionNames st (List.replicate k (ch, key)) =
        (List.range k).map (fun i => nm ++ "_" ++ toString (c0 + i)) := by
  induction k with
  | zero => intro st c0 src hl hn hc; simp [introductionNames]
  | succ k ih =>
    intro st c0 src hl hn hc
    rw [List.replicate_succ, introductionNames]
    cases hbind : bindChannel st ch key with
    | none => rw [bindChannel, hl] at hbind; exact absurd hbind (by simp)
    | some r =>
      obtain ⟨cls', iname, st'⟩ := r
      rw [bindChannel, hl] at hbind
      dsimp only at hbind
      simp only [Option.some.injEq, Prod.mk.injEq] at hbind
      obtain ⟨hcls, hiname, hst⟩ := hbind
      have hname' : cls'.name = nm := by rw [← hcls, ← hn]
      have hcnt : nextCount st src.name = c0 := by rw [hn, hc]
      have hl' : lookupA st'.class_dict key = some cls' := by
        rw [← hst]; dsimp only; rw [← hcls]; exact lookupA_updateA_self _ _ _
      rw [hcnt] at hst hiname
      have hc' : nextCount st' nm = c0 + 1 := by
        rw [← hst, ← hn]
        unfold nextCount
        dsimp only
        rw [lookupA_updateA_self]
      dsimp only
      rw [List.range_succ_eq_map, List.map_cons, List.map_map]
      congr 1
      · rw [← hiname, hn, Nat.add_zero]
      · rw [ih st' (c0 + 1) cls' hl' hname' hc']
        apply List.map_congr_left
        intro i _
        simp only [Function.comp_apply]
        have : c0 + 1 + i = c0 + (i + 1) := by omega
        rw [this]

/-- C8: per-class-name sequence numbers.  First conjunct — one binding
step: a first introduction of a class name yields `<name>_0` and stores
count 0, a later one with stored count `i` yields `<name>_<i+1>` and
stores `i + 1`, and counters of other names are untouched.  Second
conjunct — iterating `k` introductions resolving to a class named `nm`
with no prior count yields exactly the names `nm_0 .. nm_(k-1)`. -/
theorem c8_instance_naming :
    (∀ (st : ParserState) (ch : Nat) (key : Option Bits) (src cls : ClassDescr)
       (iname : String) (st' : ParserState),
       lookupA st.class_dict key = some src →
       bindChannel st ch key = some (cls, iname, st') →
       (lookupA st.instance_count src.name = none →
          iname = src.name ++ "_" ++ toString (0 : Nat) ∧
          lookupA st'.instance_count src.name = some 0) ∧
       (∀ i, lookupA st.instance_count src.name = some i →
          iname = src.name ++ "_" ++ toString (i + 1) ∧
          lookupA st'.instance_count src.name = some (i + 1)) ∧
       (∀ other, other ≠ src.name →
          lookupA st'.instance_count other = lookupA st.instance_count other)) ∧
    (∀ (k : Nat) (st : ParserState) (ch : Nat) (key : Option Bits)
       (src : ClassDescr),
       lookupA st.class_dict key = some src →
       lookupA st.instance_count src.name = none →
       introductionNames st (List.replicate k (ch, key)) =
         (List.range k).map (fun i => src.name ++ "_" ++ toString i)) := by
  constructor
  · intro st ch key src cls iname st' hl h
    rw [bindChannel, hl] at h
    dsimp only at h
    simp only [Option.some.injEq, Prod.mk.injEq] at h
    obtain ⟨_, hiname, hst⟩ := h
    refine ⟨?_, ?_, ?_⟩
    · intro h0
      have hcnt : nextCount st src.name = 0 := by unfold nextCount; rw [h0]
      constructor
      · rw [← hiname, hcnt]
      · rw [← hst]; dsimp only; rw [← hcnt]; exact lookupA_updateA_self _ _ _
    · intro i hi
      have hcnt : nextCount st src.name = i + 1 := by unfold nextCount; rw [hi]
      constructor
      · rw [← hiname, hcnt]
      · rw [← hst]; dsimp only; rw [← hcnt]; exact lookupA_updateA_self _ _ _
    · intro other hother
      rw [← hst]; dsimp only
      exact lookupA_updateA_ne _ _ _ _ hother
  · intro k st ch key src hl h0
    have := introductionNames_replicate ch key src.name k st 0 src hl rfl
      (by unfold nextCount; rw [h0])
    rw [this]
    simp

/-- Witness for `c8_instance_naming`: three successive channel-0
introductions on the fresh state (root class `FirstServerObject`, no prior
count) are named `FirstServerObject_0`, `_1`, `_2`. -/
theorem c8_instance_naming_witness :
    introductionNames initState (List.replicate 3 (0, none)) =
      ["FirstServerObject_0", "FirstServerObject_1", "FirstServerObject_2"] :=
  (c8_instance_naming.2 3 initState 0 none
    ⟨"FirstServerObject", pFirstServerObjectProps, none⟩ rfl rfl).trans rfl

/-! ## Inversion lemmas for the payload codec -/

/-- Inverting a successful `payloadFrom`: the size field was read, `size`
bits of body were split off, and the body either decoded cleanly or
captured a `ParseError`; the object's fields record which. -/
theorem payloadFrom_ok_body {bits : Bits} {ch : Nat} {rel : Bool}
    {st : ParserState} {p : PayloadData} {st' : ParserState} {rest : Bits}
    (h : payloadFrom bits ch rel st = .ok ((p, st'), rest)) :
    ∃ size nbits b1 pb,
      readPayloadSize bits = .ok ((size, nbits), b1) ∧
      getnbits size b1 = .ok (pb, rest) ∧
      p.size = some size ∧ p.nrOfPayloadBits = nbits ∧ p.reliable = rel ∧
      ((∃ deleted,
          payloadBody pb ch size st =
            .ok p.object_class p.instancename p.instanceProps deleted st' ∧
          p.object_deleted = deleted ∧ p.bitsleftreason = none ∧
          p.bitsleft = none) ∨
       (∃ m blv,
          payloadBody pb ch size st =
            .captured p.object_class p.instancename p.instanceProps m blv st' ∧
          p.object_deleted = false ∧ p.bitsleftreason = some m ∧
          p.bitsleft = some blv)) := by
  rw [payloadFrom] at h
  split at h
  · exact absurd h (by simp)
  · next size nbits b1 hsz =>
    split at h
    · exact absurd h (by simp)
    · next pb b2 hpb =>
      split at h
      · exact absurd h (by simp)
      · next oc iname inst deleted st1 hbody =>
        simp only [Except.ok.injEq, Prod.mk.injEq] at h
        obtain ⟨⟨hp, hst⟩, hrest⟩ := h
        subst hp; subst hst; subst hrest
        exact ⟨size, nbits, b1, pb, hsz, hpb, rfl, rfl, rfl,
          .inl ⟨deleted, hbody, rfl, rfl, rfl⟩⟩
      · next oc iname inst m blv st1 hbody =>
        simp only [Except.ok.injEq, Prod.mk.injEq] at h
        obtain ⟨⟨hp, hst⟩, hrest⟩ := h
        subst hp; subst hst; subst hrest
        exact ⟨size, nbits, b1, pb, hsz, hpb, rfl, rfl, rfl,
          .inr ⟨m, blv, hbody, rfl, rfl, rfl⟩⟩

/-- `runObjBody` never touches the state when it captures a `ParseError`. -/
theorem runObjBody_captured_state {oc : Option ObjClass} {iname : String}
    {cls : ClassDescr} {pb : Bits} {ch size : Nat} {st : ParserState}
    {oc' : Option ObjClass} {iname' : Option String}
    {inst : Option (List ObjProp)} {m : String} {blv : Bits}
    {st' : ParserState}
    (h : runObjBody oc iname cls pb ch size st =
      .captured oc' iname' inst m blv st') : st' = st := by
  rw [runObjBody] at h
  split at h
  · exact absurd h (by simp)
  · split at h
    · simp only [BodyResult.captured.injEq] at h
      exact h.2.2.2.2.2.symm
    · exact absurd h (by simp)
    · split at h
      · simp only [BodyResult.captured.injEq] at h
        exact h.2.2.2.2.2.symm
      · split at h <;> exact absurd h (by simp)

/-- A clean `runObjBody`: a size-0 payload deletes the channel binding and
reports the object destroyed; any other size leaves the state untouched. -/
theorem runObjBody_ok_state {oc : Option ObjClass} {iname : String}
    {cls : ClassDescr} {pb : Bits} {ch size : Nat} {st : ParserState}
    {oc' : Option ObjClass} {iname' : Option String}
    {inst : Option (List ObjProp)} {deleted : Bool} {st' : ParserState}
    (h : runObjBody oc iname cls pb ch size st =
      .ok oc' iname' inst deleted st') :
    (size = 0 → deleted = true ∧
       st' = { st with channels := delA st.channels ch }) ∧
    (size ≠ 0 → deleted = false ∧ st' = st) := by
  rw [runObjBody] at h
  split at h
  · exact absurd h (by simp)
  · split at h
    · exact absurd h (by simp)
    · exact absurd h (by simp)
    · split at h
      · exact absurd h (by simp)
      · split at h
        · next hsz =>
          simp only [BodyResult.ok.injEq] at h
          obtain ⟨_, _, _, hdel, hst⟩ := h
          exact ⟨fun _ => ⟨hdel.symm, hst.symm⟩, fun hne => absurd hsz hne⟩
        · next hsz =>
          simp only [BodyResult.ok.injEq] at h
          obtain ⟨_, _, _, hdel, hst⟩ := h
          exact ⟨fun h0 => absurd h0 hsz, fun _ => ⟨hdel.symm, hst.symm⟩⟩

/-- `runObjBody` reports back exactly the `object_class` it was given
(clean case). -/
theorem runObjBody_oc_ok {oc : Option ObjClass} {iname : String}
    {cls : ClassDescr} {pb : Bits} {ch size : Nat} {st : ParserState}
    {oc' : Option ObjClass} {iname' : Option String}
    {inst : Option (List ObjProp)} {deleted : Bool} {st' : ParserState}
    (h : runObjBody oc iname cls pb ch size st =
      .ok oc' iname' inst deleted st') : oc' = oc := by
  rw [runObjBody] at h
  split at h
  · exact absurd h (by simp)
  · split at h
    · exact absurd h (by simp)
    · exact absurd h (by simp)
    · split at h
      · exact absurd h (by simp)
      · split at h <;>
        · simp only [BodyResult.ok.injEq] at h
          exact h.1.symm

/-- `runObjBody` reports back exactly the `object_class` it was given
(captured case). -/
theorem runObjBody_oc_captured {oc : Option ObjClass} {iname : String}
    {cls : ClassDescr} {pb : Bits} {ch size : Nat} {st : ParserState}
    {oc' : Option ObjClass} {iname' : Option String}
    {inst : Option (List ObjProp)} {m : String} {blv : Bits}
    {st' : ParserState}
    (h : runObjBody oc iname cls pb ch size st =
      .captured oc' iname' inst m blv st') : oc' = oc := by
  rw [runObjBody] at h
  split at h
  · exact absurd h (by simp)
  · split at h
    · simp only [BodyResult.captured.injEq] at h
      exact h.1.symm
    · exact absurd h (by simp)
    · split at h
      · simp only [BodyResult.captured.injEq] at h
        exact h.1.symm
      · split at h <;> exact absurd h (by simp)

/-- On a bound channel `payloadBody` is exactly `runObjBody` on the
binding. -/
theorem payloadBody_bound {pb : Bits} {ch size : Nat} {st : ParserState}
    {b : ChannelBinding} (hb : lookupA st.channels ch = some b) :
    payloadBody pb ch size st =
      runObjBody none b.instancename b.class_ pb ch size st := by
  rw [payloadBody, hb]

/-! ## Claim C10 — size-0 payload on an unbound channel -/

/-- C10: a size-0 payload arriving on a channel with no binding attempts
the 32-bit class read inside the empty body; the resulting short-read
`ParseError` is captured on the payload (`bitsleft` empty), the object is
not marked deleted, and the parser state is returned unchanged. -/
theorem c10_size0_unbound (bits : Bits) (ch : Nat) (rel : Bool)
    (st : ParserState) (hlen : 14 ≤ bits.length)
    (hsz : bits.take 14 = List.replicate 14 false)
    (hub : lookupA st.channels ch = none) :
    payloadFrom bits ch rel st =
      .ok (({ reliable := rel, size := some 0, nrOfPayloadBits := 14,
              object_class := some ⟨none⟩, object_deleted := false,
              instancename := none, instanceProps := none,
              bitsleftreason :=
                some "Tried to get more bits than are available",
              bitsleft := some [] }, st), bits.drop 14) := by
  have h1 : getnbits 14 bits = .ok (List.replicate 14 false, bits.drop 14) := by
    rw [getnbits_of_le hlen, hsz]
  have h0 : getnbits 0 (bits.drop 14) = .ok ([], bits.drop 14) := by
    rw [getnbits_of_le (Nat.zero_le _), List.take_zero, List.drop_zero]
  have hsize : readPayloadSize bits = .ok ((0, 14), bits.drop 14) := by
    rw [readPayloadSize, h1]
    rfl
  rw [payloadFrom, hsize]
  dsimp only
  rw [h0]
  dsimp only
  rw [payloadBody, hub]
  rfl

/-- Witness for `c10_size0_unbound`: 14 zero bits on unbound channel 3 of
the fresh session state. -/
theorem c10_size0_unbound_witness :
    payloadFrom (List.replicate 14 false) 3 false initState =
      .ok (({ reliable := false, size := some 0, nrOfPayloadBits := 14,
              object_class := some ⟨none⟩, object_deleted := false,
              instancename := none, instanceProps := none,
              bitsleftreason :=
                some "Tried to get more bits than are available",
              bitsleft := some [] }, initState), []) :=
  c10_size0_unbound (List.replicate 14 false) 3 false initState
    (by decide) (by decide) rfl

/-! ## Claim C4 — state mutation by error-capturing payloads -/

/-- C4 (amended): a payload that captures a `ParseError` leaves the state
unchanged *when its channel was already bound* (first conjunct), and also
when the 32-bit class read itself failed on an unbound channel (second
conjunct, recognizable by `object_class` carrying no id); but a payload on
an unbound channel whose class read succeeded has already registered the
class, bumped the instance counter and bound the channel before the error
was captured, and those mutations persist (see the counterexample). -/
theorem c4_state_mutation_amended :
    (∀ (bits : Bits) (ch : Nat) (rel : Bool) (st : ParserState)
       (b : ChannelBinding) (p : PayloadData) (st' : ParserState)
       (rest : Bits),
       lookupA st.channels ch = some b →
       payloadFrom bits ch rel st = .ok ((p, st'), rest) →
       p.bitsleftreason ≠ none → st' = st) ∧
    (∀ (bits : Bits) (ch : Nat) (rel : Bool) (st : ParserState)
       (p : PayloadData) (st' : ParserState) (rest : Bits),
       lookupA st.channels ch = none →
       payloadFrom bits ch rel st = .ok ((p, st'), rest) →
       p.object_class = some ⟨none⟩ → st' = st) := by
  constructor
  · intro bits ch rel st b p st' rest hb h herr
    obtain ⟨size, nbits, b1, pb, _, _, _, _, _, hbody⟩ := payloadFrom_ok_body h
    cases hbody with
    | inl hok =>
      obtain ⟨deleted, _, _, hreason, _⟩ := hok
      exact absurd hreason herr
    | inr hcap =>
      obtain ⟨m, blv, hbody, _, _, _⟩ := hcap
      rw [payloadBody_bound hb] at hbody
      exact runObjBody_captured_state hbody
  · intro bits ch rel st p st' rest hub h hoc
    obtain ⟨size, nbits, b1, pb, _, _, _, _, _, hbody⟩ := payloadFrom_ok_body h
    cases hbody with
    | inl hok =>
      obtain ⟨deleted, hbody, _, _, _⟩ := hok
      rw [payloadBody, hub] at hbody
      dsimp only at hbody
      split at hbody
      · exact absurd hbody (by simp)
      · exact absurd hbody (by simp)
      · split at hbody
        · exact absurd hbody (by simp)
        · have := runObjBody_oc_ok hbody
          rw [hoc] at this
          exact absurd this (by simp)
    | inr hcap =>
      obtain ⟨m, blv, hbody, _, _, _⟩ := hcap
      rw [payloadBody, hub] at hbody
      dsimp only at hbody
      split at hbody
      · simp only [BodyResult.captured.injEq] at hbody
        exact hbody.2.2.2.2.2.symm
      · exact absurd hbody (by simp)
      · split at hbody
        · exact absurd hbody (by simp)
        · have := runObjBody_oc_captured hbody
          rw [hoc] at this
          exact absurd this (by simp)

/-- C4 counterexample: on the fresh state, a 38-bit payload on channel 5
(32-bit unknown class key, then a 6-bit property id the synthetic empty
class cannot resolve) captures `Unknown property` — yet the channel table
has grown from 0 to 1 entries, so the state is *not* the state before the
call. -/
theorem c4_state_mutation_counterexample :
    ∃ p st' rest,
      payloadFrom (natToBits 38 14 ++ List.replicate 38 false) 5 false
        initState = .ok ((p, st'), rest) ∧
      p.bitsleftreason ≠ none ∧
      st'.channels.length ≠ initState.channels.length :=
  ⟨_, _, _, rfl, by decide, by decide⟩

/-- Witness for `c4_state_mutation_amended`: a payload on bound channel 0
whose body is an 8-bit property id unknown to `FirstServerObject`
captures `Unknown property` and leaves the state exactly as it was. -/
theorem c4_state_mutation_witness :
    ∃ p st' rest,
      payloadFrom (natToBits 8 14 ++ List.replicate 8 false) 0 false
        boundState = .ok ((p, st'), rest) ∧ st' = boundState :=
  ⟨_, _, _, rfl,
    c4_state_mutation_amended.1 (natToBits 8 14 ++ List.replicate 8 false)
      0 false boundState
      ⟨⟨"FirstServerObject", pFirstServerObjectProps, some 8⟩,
        "FirstServerObject_0"⟩ _ _ _ rfl rfl (by decide)⟩

/-! ## More inversion lemmas: registration, binding, instance naming -/

theorem registerClass_channels (st : ParserState) (key : Bits) :
    (registerClass st key).channels = st.channels := by
  unfold registerClass; split <;> rfl

theorem registerClass_instance_count (st : ParserState) (key : Bits) :
    (registerClass st key).instance_count = st.instance_count := by
  unfold registerClass; split <;> rfl

/-- Registering a (some-keyed) class never disturbs the `None` root
entry. -/
theorem lookupA_registerClass_none (st : ParserState) (key : Bits) :
    lookupA (registerClass st key).class_dict none =
      lookupA st.class_dict none := by
  unfold registerClass
  split
  · rfl
  · unfold lookupA
    dsimp only
    rw [List.find?_append]
    cases st.class_dict.find? (fun kv => kv.1 == none) <;> simp [List.find?_cons]

/-- Inverting a successful `bindChannel`. -/
theorem bindChannel_inv {st : ParserState} {ch : Nat} {key : Option Bits}
    {cls : ClassDescr} {iname : String} {st' : ParserState}
    (h : bindChannel st ch key = some (cls, iname, st')) :
    ∃ src, lookupA st.class_dict key = some src ∧
      cls.name = src.name ∧
      iname = src.name ++ "_" ++ toString (nextCount st src.name) ∧
      st'.channels = updateA st.channels ch ⟨cls, iname⟩ ∧
      st'.class_dict = updateA st.class_dict key cls ∧
      st'.instance_count =
        updateA st.instance_count src.name (nextCount st src.name) := by
  rw [bindChannel] at h
  split at h
  · exact absurd h (by simp)
  · next src hsrc =>
    dsimp only at h
    simp only [Option.some.injEq, Prod.mk.injEq] at h
    obtain ⟨hcls, hiname, hst⟩ := h
    refine ⟨src, hsrc, ?_, ?_, ?_, ?_, ?_⟩
    · rw [← hcls]
    · rw [← hiname]
    · rw [← hst, ← hcls, ← hiname]
    · rw [← hst, ← hcls]
    · rw [← hst]

/-- `runObjBody` reports the instance name it was given (clean case). -/
theorem runObjBody_iname_ok {oc : Option ObjClass} {iname : String}
    {cls : ClassDescr} {pb : Bits} {ch size : Nat} {st : ParserState}
    {oc' : Option ObjClass} {iname' : Option String}
    {inst : Option (List ObjProp)} {deleted : Bool} {st' : ParserState}
    (h : runObjBody oc iname cls pb ch size st =
      .ok oc' iname' inst deleted st') : iname' = some iname := by
  rw [runObjBody] at h
  split at h
  · exact absurd h (by simp)
  · split at h
    · exact absurd h (by simp)
    · exact absurd h (by simp)
    · split at h
      · exact absurd h (by simp)
      · split at h <;>
        · simp only [BodyResult.ok.injEq] at h
          exact h.2.1.symm

/-- `runObjBody` reports the instance name it was given (captured case). -/
theorem runObjBody_iname_captured {oc : Option ObjClass} {iname : String}
    {cls : ClassDescr} {pb : Bits} {ch size : Nat} {st : ParserState}
    {oc' : Option ObjClass} {iname' : Option String}
    {inst : Option (List ObjProp)} {m : String} {blv : Bits}
    {st' : ParserState}
    (h : runObjBody oc iname cls pb ch size st =
      .captured oc' iname' inst m blv st') : iname' = some iname := by
  rw [runObjBody] at h
  split at h
  · exact absurd h (by simp)
  · split at h
    · simp only [BodyResult.captured.injEq] at h
      exact h.2.1.symm
    · exact absurd h (by simp)
    · split at h
      · simp only [BodyResult.captured.injEq] at h
        exact h.2.1.symm
      · split at h <;> exact absurd h (by simp)

/-- The instance loop on an empty body returns no properties and no
remainder. -/
theorem objInstFrom_nil (fuel : Nat) (cls : ClassDescr) (w : Nat) :
    objInstFrom (fuel + 1) cls w [] = ([], .ok []) := rfl

/-! ## Claim C2 — channel 0 and the class prefix -/

/-- C2 counterexample: on a fresh session state, the very first payload
on channel 0 (size 32, body of 32 zero bits) *does* consume a 32-bit
class key from the body: the decoded payload carries
`object_class.classid = 0` and its property list is empty, the whole body
having gone to the class read — where the claim says no class key is
consumed on channel 0. -/
theorem c2_channel0_counterexample :
    ∃ p st' rest,
      payloadFrom (natToBits 32 14 ++ List.replicate 32 false) 0 false
        initState = .ok ((p, st'), rest) ∧
      p.object_class = some ⟨some 0⟩ ∧ p.instanceProps = some [] ∧
      p.bitsleftreason = none :=
  ⟨_, _, _, rfl, rfl, rfl, rfl⟩

/-- C2 (amended): channel 0 does not start bound and its first payload
*does* read a 32-bit class key (`object_class` is always populated on an
unbound channel); the key's value is however ignored for the class
lookup — whenever a class id was decoded, the channel ends up bound to the
descriptor registered under the `None` root key, and the payload carries
that binding's instance name. -/
theorem c2_channel0_amended :
    ∀ (bits : Bits) (rel : Bool) (st : ParserState) (p : PayloadData)
      (st' : ParserState) (rest : Bits),
      lookupA st.channels 0 = none →
      payloadFrom bits 0 rel st = .ok ((p, st'), rest) →
      (p.object_class ≠ none) ∧
      (∀ cid, p.object_class = some ⟨some cid⟩ →
        ∃ root binding,
          lookupA st.class_dict none = some root ∧
          lookupA st'.channels 0 = some binding ∧
          binding.class_.name = root.name ∧
          p.instancename = some binding.instancename) := by
  intro bits rel st p st' rest hub h
  obtain ⟨size, nbits, b1, pb, hsz, hpb, hpsize, _, _, hbody⟩ :=
    payloadFrom_ok_body h
  have hpblen : pb.length = size := ((getnbits_parts hpb).2)
  have hrun : ∀ (oc' : Option ObjClass) (iname' : Option String)
      (inst : Option (List ObjProp)) (cb : Bits) (rest2 : Bits)
      (st2 : ParserState) (cls : ClassDescr) (iname : String),
      getnbits 32 pb = .ok (cb, rest2) →
      bindChannel (registerClass st (getclasskey (toint cb))) 0 none =
        some (cls, iname, st2) →
      (runObjBody (some ⟨some (toint cb)⟩) iname cls rest2 0 size st2 =
          .ok oc' iname' inst p.object_deleted st' ∨
       ∃ m blv, runObjBody (some ⟨some (toint cb)⟩) iname cls rest2 0 size
          st2 = .captured oc' iname' inst m blv st') →
      oc' = p.object_class →
      iname' = p.instancename →
      (∀ cid, p.object_class = some ⟨some cid⟩ →
        ∃ root binding,
          lookupA st.class_dict none = some root ∧
          lookupA st'.channels 0 = some binding ∧
          binding.class_.name = root.name ∧
          p.instancename = some binding.instancename) := by
    intro oc' iname' inst cb rest2 st2 cls iname hg hbind hrun hoc hin cid _
    obtain ⟨src, hsrc, hname, _, hchans, _, _⟩ := bindChannel_inv hbind
    rw [lookupA_registerClass_none] at hsrc
    have hsize32 : size ≠ 0 := by
      have := (getnbits_eq_ok hg).2.2
      omega
    have hst2 : st' = st2 := by
      cases hrun with
      | inl hok => exact ((runObjBody_ok_state hok).2 hsize32).2
      | inr hcap => obtain ⟨m, blv, hcap⟩ := hcap
                    exact runObjBody_captured_state hcap
    have hbindlk : lookupA st2.channels 0 = some ⟨cls, iname⟩ := by
      rw [hchans, registerClass_channels]
      exact lookupA_updateA_self _ _ _
    refine ⟨src, ⟨cls, iname⟩, hsrc, ?_, hname, ?_⟩
    · rw [hst2]; exact hbindlk
    · rw [← hin]
      cases hrun with
      | inl hok => rw [runObjBody_iname_ok hok]
      | inr hcap => obtain ⟨m, blv, hcap⟩ := hcap
                    rw [runObjBody_iname_captured hcap]
  cases hbody with
  | inl hok =>
    obtain ⟨deleted, hbody, hdel, _, _⟩ := hok
    rw [payloadBody, hub] at hbody
    dsimp only at hbody
    split at hbody
    · exact absurd hbody (by simp)
    · exact absurd hbody (by simp)
    · next cb rest2 hg =>
      split at hbody
      · exact absurd hbody (by simp)
      · next cls iname st2 hbind =>
        have hocp := runObjBody_oc_ok hbody
        constructor
        · rw [hocp]; simp
        · refine hrun p.object_class p.instancename p.instanceProps cb rest2
            st2 cls iname hg ?_ ?_ rfl rfl
          · rw [if_neg (by simp)] at hbind
            exact hbind
          · rw [hdel]; exact .inl hbody
  | inr hcap =>
    obtain ⟨m, blv, hbody, hdel, _, _⟩ := hcap
    rw [payloadBody, hub] at hbody
    dsimp only at hbody
    split at hbody
    · next m' blv' hg =>
      simp only [BodyResult.captured.injEq] at hbody
      obtain ⟨hoc, _, _, _, _, _⟩ := hbody
      constructor
      · rw [← hoc]; simp
      · intro cid hcid
        rw [← hoc] at hcid
        exact absurd hcid (by simp)
    · exact absurd hbody (by simp)
    · next cb rest2 hg =>
      split at hbody
      · exact absurd hbody (by simp)
      · next cls iname st2 hbind =>
        have hocp := runObjBody_oc_captured hbody
        constructor
        · rw [hocp]; simp
        · refine hrun p.object_class p.instancename p.instanceProps cb rest2
            st2 cls iname hg ?_ ?_ rfl rfl
          · rw [if_neg (by simp)] at hbind
            exact hbind
          · exact .inr ⟨m, blv, hbody⟩

/-- Witness for `c2_channel0_amended` at the `c2_channel0_counterexample`
input: the payload's class object is populated. -/
theorem c2_channel0_witness :
    ∃ p st' rest,
      payloadFrom (natToBits 32 14 ++ List.replicate 32 false) 0 false
        initState = .ok ((p, st'), rest) ∧ p.object_class ≠ none :=
  ⟨_, _, _, rfl,
    (c2_channel0_amended (natToBits 32 14 ++ List.replicate 32 false) false
      initState _ _ _ rfl rfl).1⟩

/-! ## Claim C6 — channel lifecycle -/

/-- C6: (1) a successfully framed payload of declared size 0 on a bound
channel always decodes cleanly, marks the object deleted and removes the
binding; (2) a payload of any non-zero size on a bound channel returns
the state — hence the binding — completely unchanged and never reports a
deletion; (3) a payload on an unbound channel (in particular the next
payload after a deletion) reads a class prefix again (`object_class`
populated). -/
theorem c6_channel_lifecycle :
    (∀ (bits : Bits) (ch : Nat) (rel : Bool) (st : ParserState)
       (b : ChannelBinding) (p : PayloadData) (st' : ParserState)
       (rest : Bits),
       lookupA st.channels ch = some b →
       payloadFrom bits ch rel st = .ok ((p, st'), rest) →
       p.size = some 0 →
       p.object_deleted = true ∧ lookupA st'.channels ch = none ∧
         p.bitsleftreason = none) ∧
    (∀ (bits : Bits) (ch : Nat) (rel : Bool) (st : ParserState)
       (b : ChannelBinding) (p : PayloadData) (st' : ParserState)
       (rest : Bits) (s : Nat),
       lookupA st.channels ch = some b →
       payloadFrom bits ch rel st = .ok ((p, st'), rest) →
       p.size = some s → s ≠ 0 →
       st' = st ∧ p.object_deleted = false) ∧
    (∀ (bits : Bits) (ch : Nat) (rel : Bool) (st : ParserState)
       (p : PayloadData) (st' : ParserState) (rest : Bits),
       lookupA st.channels ch = none →
       payloadFrom bits ch rel st = .ok ((p, st'), rest) →
       p.object_class ≠ none) := by
  refine ⟨?_, ?_, ?_⟩
  · intro bits ch rel st b p st' rest hb h hsz0
    obtain ⟨size, nbits, b1, pb, hsz, hpb, hpsize, _, _, hbody⟩ :=
      payloadFrom_ok_body h
    have hsize0 : size = 0 := by
      rw [hpsize] at hsz0
      exact (Option.some.injEq _ _ ▸ hsz0 : _)
    subst hsize0
    have hpbnil : pb = [] := by
      have := (getnbits_eq_ok hpb).1
      simpa using this
    subst hpbnil
    cases hbody with
    | inl hok =>
      obtain ⟨deleted, hbody, hdel, hreason, _⟩ := hok
      rw [payloadBody_bound hb, runObjBody] at hbody
      split at hbody
      · exact absurd hbody (by simp)
      · rw [objInstFrom_nil] at hbody
        dsimp only at hbody
        rw [if_neg (by simp), if_pos rfl] at hbody
        simp only [BodyResult.ok.injEq] at hbody
        obtain ⟨_, _, _, hd, hst⟩ := hbody
        refine ⟨by rw [hdel, ← hd], ?_, hreason⟩
        rw [← hst]
        exact lookupA_delA_self _ _
    | inr hcap =>
      obtain ⟨m, blv, hbody, _, _, _⟩ := hcap
      rw [payloadBody_bound hb, runObjBody] at hbody
      split at hbody
      · exact absurd hbody (by simp)
      · rw [objInstFrom_nil] at hbody
        dsimp only at hbody
        rw [if_neg (by simp), if_pos rfl] at hbody
        exact absurd hbody (by simp)
  · intro bits ch rel st b p st' rest s hb h hpsz hsne
    obtain ⟨size, nbits, b1, pb, hsz, hpb, hpsize, _, _, hbody⟩ :=
      payloadFrom_ok_body h
    have hsizene : size ≠ 0 := by
      rw [hpsize] at hpsz
      have : size = s := by simpa using hpsz
      rw [this]; exact hsne
    cases hbody with
    | inl hok =>
      obtain ⟨deleted, hbody, hdel, _, _⟩ := hok
      rw [payloadBody_bound hb] at hbody
      obtain ⟨hd, hst⟩ := (runObjBody_ok_state hbody).2 hsizene
      exact ⟨hst, by rw [hdel, hd]⟩
    | inr hcap =>
      obtain ⟨m, blv, hbody, hdel, _, _⟩ := hcap
      rw [payloadBody_bound hb] at hbody
      exact ⟨runObjBody_captured_state hbody, hdel⟩
  · intro bits ch rel st p st' rest hub h
    obtain ⟨size, nbits, b1, pb, _, _, _, _, _, hbody⟩ := payloadFrom_ok_body h
    cases hbody with
    | inl hok =>
      obtain ⟨deleted, hbody, _, _, _⟩ := hok
      rw [payloadBody, hub] at hbody
      dsimp only at hbody
      split at hbody
      · exact absurd hbody (by simp)
      · exact absurd hbody (by simp)
      · split at hbody
        · exact absurd hbody (by simp)
        · rw [runObjBody_oc_ok hbody]; simp
    | inr hcap =>
      obtain ⟨m, blv, hbody, _, _, _⟩ := hcap
      rw [payloadBody, hub] at hbody
      dsimp only at hbody
      split at hbody
      · simp only [BodyResult.captured.injEq] at hbody
        rw [← hbody.1]; simp
      · exact absurd hbody (by simp)
      · split at hbody
        · exact absurd hbody (by simp)
        · rw [runObjBody_oc_captured hbody]; simp


/-- Witness for `c6_channel_lifecycle`: a size-0 payload (14 zero bits) on
bound channel 0 deletes the binding. -/
theorem c6_channel_lifecycle_witness :
    ∃ p st' rest,
      payloadFrom (List.replicate 14 false) 0 false boundState =
        .ok ((p, st'), rest) ∧
      p.object_deleted = true ∧ lookupA st'.channels 0 = none ∧
        p.bitsleftreason = none :=
  ⟨_, _, _, rfl,
    c6_channel_lifecycle.1 (List.replicate 14 false) 0 false boundState
      ⟨⟨"FirstServerObject", pFirstServerObjectProps, some 8⟩,
        "FirstServerObject_0"⟩ _ _ _ rfl rfl rfl⟩

/-! ## Claim C3 — end-of-packet alignment -/

/-- C3 (amended): once the part loop stops and the parsed/unparsed
bookkeeping check passes, the packet is accepted iff the remaining bit
count equals `8 - parsed % 8` — a value between 1 and 8, so a parse that
ends byte-aligned requires exactly *eight* trailing padding bits, never
zero (the claim's `(8 - parsed mod 8) mod 8`); any other count fails with
the left-over-bits `ParseError`. -/
theorem c3_padding_amended :
    ∀ (bits : Bits) (st : ParserState) (sb b1 : Bits) (parts : List Part)
      (st1 : ParserState) (b2 : Bits) (parsed : Nat),
      getnbits 14 bits = .ok (sb, b1) →
      partsLoop (b1.length + 1) b1 st = .ok ((parts, st1), b2) →
      parsed = (encPacket { seqnr := some (toint sb), parts := parts }).length →
      (b2.length : Int) = (bits.length : Int) - (parsed : Int) →
      (1 ≤ 8 - parsed % 8 ∧ 8 - parsed % 8 ≤ 8) ∧
      (b2.length = 8 - parsed % 8 →
        packetFrom bits st =
          .ok (({ seqnr := some (toint sb), parts := parts,
                  paddingbits := some b2 }, st1), [])) ∧
      (b2.length ≠ 8 - parsed % 8 →
        packetFrom bits st =
          .error (.parse "Left over bits at the end of the packet" b2)) := by
  intro bits st sb b1 parts st1 b2 parsed hg hloop hparsed hint
  have hmod : parsed % 8 < 8 := Nat.mod_lt _ (by omega)
  refine ⟨⟨by omega, by omega⟩, ?_, ?_⟩
  · intro hlen
    rw [packetFrom, hg]
    dsimp only
    rw [hloop]
    dsimp only
    rw [← hparsed, if_neg (by rw [hint]; simp)]
    rw [if_neg (by rw [hlen]; simp)]
    have : getnbits (8 - parsed % 8) b2 = .ok (b2, []) := by
      rw [getnbits_of_le (by omega), ← hlen, List.take_length,
        List.drop_length]
    rw [this]
  · intro hlen
    rw [packetFrom, hg]
    dsimp only
    rw [hloop]
    dsimp only
    rw [← hparsed, if_neg (by rw [hint]; simp)]
    rw [if_pos hlen]

/-- C3 counterexample: `c3alignedBits` is 120 bits (byte-aligned, zero
bits after the terminator — exactly `(8 - 120 mod 8) mod 8 = 0`, which the
claim says must be accepted), yet the decoder rejects it: the code
demands `8 - parsed % 8 = 8` further padding bits. -/
theorem c3_padding_counterexample :
    c3alignedBits.length % 8 = 0 ∧
    packetFrom c3alignedBits initState =
      .error (.parse "Left over bits at the end of the packet" []) :=
  ⟨rfl, rfl⟩

/-- Witness for `c3_padding_amended`: the same seven-ack packet followed
by eight padding bits is accepted. -/
theorem c3_padding_witness :
    ∃ pkt st1, packetFrom (c3alignedBits ++ List.replicate 8 false)
      initState = .ok ((pkt, st1), []) :=
  ⟨_, _,
    (c3_padding_amended (c3alignedBits ++ List.replicate 8 false) initState
      _ _ _ _ _ _ rfl rfl rfl (by decide)).2.1 (by decide)⟩

/-! ## Claim C1 — round-trip machinery

Every decoder lemma below has the shape "re-encoding the decoded value and
appending the unconsumed tail reproduces the input, up to trailing zero
bits" (`encX v ++ rest = bits ++ replicate k false`).  For every codec
except the string codec `k = 0`; a string truncated by the end of its
payload re-encodes longer than it consumed, which is where the extra
zeros come from — and why bit-exactness needs a global length argument. -/

theorem zext_comp {e1 r1 b e2 r2 : Bits}
    (h1 : ∃ k, e1 ++ r1 = b ++ List.replicate k false)
    (h2 : ∃ k, e2 ++ r2 = r1 ++ List.replicate k false) :
    ∃ k, (e1 ++ e2) ++ r2 = b ++ List.replicate k false := by
  obtain ⟨k1, h1⟩ := h1
  obtain ⟨k2, h2⟩ := h2
  refine ⟨k1 + k2, ?_⟩
  rw [List.append_assoc, h2, ← List.append_assoc, h1, List.append_assoc,
    ← List.replicate_add]

theorem zext_exact {e r b : Bits} (h : e ++ r = b) :
    ∃ k, e ++ r = b ++ List.replicate k false :=
  ⟨0, by simpa using h⟩

/-- `intFrom` then `int2bitarray _ 32` is exact. -/
theorem intFrom_rt {bits : Bits} {n : Nat} {rest : Bits}
    (h : intFrom bits = .ok (n, rest)) :
    int2bitarray n 32 ++ rest = bits := by
  rw [intFrom] at h
  split at h
  · exact absurd h (by simp)
  · next vb b1 hg =>
    simp only [Except.ok.injEq, Prod.mk.injEq] at h
    obtain ⟨hn, hr⟩ := h
    obtain ⟨happ, hlen⟩ := getnbits_parts hg
    rw [← hn, ← hr, ← hlen, int2bitarray_toint (by omega), happ]

/-- A one-bit read re-encoded from its `headD` is exact. -/
theorem headD_singleton {vb : Bits} (h : vb.length = 1) :
    [vb.headD false] = vb := by
  cases vb with
  | nil => simp at h
  | cons b t =>
    cases t with
    | nil => rfl
    | cons c u => simp at h

/-- `bitsToNat` is zero only on all-zero bits. -/
theorem bitsToNat_eq_zero {bs : Bits} (h : bitsToNat bs = 0) :
    bs = List.replicate bs.length false := by
  induction bs with
  | nil => rfl
  | cons b t ih =>
    rw [bitsToNat] at h
    cases b
    · simp only [List.length_cons, List.replicate_succ]
      rw [← ih (by omega)]
    · simp at h

theorem pad8_length {bs : Bits} (h : bs.length ≤ 8) :
    (pad8 bs).length = 8 := by
  rw [pad8, List.length_append, List.length_replicate]
  omega

/-- `byteBits` inverts the byte value of a full chunk. -/
theorem byteBits_bitsToNat {bs : Bits} (h : bs.length = 8) :
    byteBits (bitsToNat bs) = bs := by
  rw [byteBits, ← h, natToBits_bitsToNat]

theorem tobytes_cons8 (b0 b1 b2 b3 b4 b5 b6 b7 : Bool) (rest : Bits) :
    tobytes (b0 :: b1 :: b2 :: b3 :: b4 :: b5 :: b6 :: b7 :: rest) =
      bitsToNat [b0, b1, b2, b3, b4, b5, b6, b7] :: tobytes rest := rfl

theorem tobytes_short (bs : Bits) (hne : bs ≠ []) (hlt : bs.length < 8) :
    tobytes bs = [bitsToNat (pad8 bs)] := by
  rcases bs with _ | ⟨a0, _ | ⟨a1, _ | ⟨a2, _ | ⟨a3, _ | ⟨a4, _ | ⟨a5,
    _ | ⟨a6, rest⟩⟩⟩⟩⟩⟩⟩
  · exact absurd rfl hne
  · rfl
  · rfl
  · rfl
  · rfl
  · rfl
  · rfl
  · cases rest with
    | nil => rfl
    | cons a7 rest2 => simp at hlt; omega

/-- Custom induction in byte chunks. -/
theorem chunks_induction (P : Bits → Prop) (h0 : P [])
    (hshort : ∀ bs : Bits, bs ≠ [] → bs.length < 8 → P bs)
    (hstep : ∀ (b0 b1 b2 b3 b4 b5 b6 b7 : Bool) (rest : Bits), P rest →
      P (b0 :: b1 :: b2 :: b3 :: b4 :: b5 :: b6 :: b7 :: rest)) :
    ∀ bs, P bs := by
  suffices h : ∀ (n : Nat) (bs : Bits), bs.length ≤ n → P bs by
    intro bs; exact h bs.length bs le_rfl
  intro n
  induction n with
  | zero =>
    intro bs hb
    have hnil : bs = [] := List.eq_nil_of_length_eq_zero (by omega)
    rw [hnil]; exact h0
  | succ n ih =>
    intro bs hb
    rcases bs with _ | ⟨a0, _ | ⟨a1, _ | ⟨a2, _ | ⟨a3, _ | ⟨a4, _ | ⟨a5,
      _ | ⟨a6, _ | ⟨a7, rest⟩⟩⟩⟩⟩⟩⟩⟩
    · exact h0
    · exact hshort _ (by simp) (by simp)
    · exact hshort _ (by simp) (by simp)
    · exact hshort _ (by simp) (by simp)
    · exact hshort _ (by simp) (by simp)
    · exact hshort _ (by simp) (by simp)
    · exact hshort _ (by simp) (by simp)
    · exact hshort _ (by simp) (by simp)
    · refine hstep _ _ _ _ _ _ _ _ rest (ih rest ?_)
      simp at hb
      omega

/-- Round-trip of `getstring`, the zero-extension heart of C1: re-encoding
the consumed characters plus the terminator byte and appending the
unconsumed tail reproduces the input up to trailing zeros.  The zeros are
real: a string cut short by the end of its slice re-encodes strictly
longer than it consumed. -/
theorem getstring_rt : ∀ bits : Bits,
    ∃ k, (((getstring bits).1.map byteBits).flatten ++
        List.replicate 8 false) ++ (getstring bits).2 =
      bits ++ List.replicate k false := by
  refine chunks_induction _ ?_ ?_ ?_
  · exact ⟨8, rfl⟩
  · intro bs hne hlt
    by_cases hv : bitsToNat (pad8 bs) = 0
    · refine ⟨8 - bs.length, ?_⟩
      have hpad : pad8 bs = List.replicate 8 false := by
        have h := bitsToNat_eq_zero hv
        rwa [pad8_length (by omega)] at h
      have hbs : bs ++ List.replicate (8 - bs.length) false =
          List.replicate 8 false := by
        rw [← hpad, pad8]
      have hgs : getstring bs = ([], []) := by
        rw [getstring, tobytes_short bs hne hlt, hv]
        rw [List.takeWhile_cons]
        simp only [bne_self_eq_false]
        rw [List.drop_eq_nil_of_le (by simp; omega)]
        rfl
      rw [hgs]
      simp only [List.map_nil, List.flatten_nil, List.nil_append,
        List.append_nil]
      exact hbs.symm
    · refine ⟨16 - bs.length, ?_⟩
      have hgs : getstring bs = ([bitsToNat (pad8 bs)], []) := by
        rw [getstring, tobytes_short bs hne hlt]
        rw [List.takeWhile_cons]
        simp only [List.takeWhile_nil, bne_iff_ne, ne_eq, hv,
          not_false_eq_true, if_pos, if_true]
        rw [List.drop_eq_nil_of_le (by simp; omega)]
      rw [hgs]
      simp only [List.map_cons, List.map_nil, List.flatten_cons,
        List.flatten_nil, List.append_nil]
      rw [byteBits_bitsToNat (pad8_length (by omega)), pad8,
        List.append_assoc, ← List.replicate_add]
      congr 2
      omega
  · intro b0 b1 b2 b3 b4 b5 b6 b7 rest ih
    by_cases hv : bitsToNat [b0, b1, b2, b3, b4, b5, b6, b7] = 0
    · refine ⟨0, ?_⟩
      have hc8 : ([b0, b1, b2, b3, b4, b5, b6, b7] : Bits) =
          List.replicate 8 false := bitsToNat_eq_zero hv
      have hgs : getstring (b0 :: b1 :: b2 :: b3 :: b4 :: b5 :: b6 :: b7 ::
          rest) = ([], rest) := by
        rw [getstring, tobytes_cons8, hv]
        rw [List.takeWhile_cons]
        simp only [bne_self_eq_false]
        rfl
      rw [hgs]
      simp only [List.map_nil, List.flatten_nil, List.nil_append,
        List.append_nil]
      have : (b0 :: b1 :: b2 :: b3 :: b4 :: b5 :: b6 :: b7 :: rest) =
          List.replicate 8 false ++ rest := by
        rw [← hc8]; rfl
      rw [this]
      simp
    · obtain ⟨k, ih⟩ := ih
      refine ⟨k, ?_⟩
      have hgs1 : (getstring (b0 :: b1 :: b2 :: b3 :: b4 :: b5 :: b6 :: b7 ::
          rest)).1 = bitsToNat [b0, b1, b2, b3, b4, b5, b6, b7] ::
            (getstring rest).1 := by
        rw [getstring, getstring, tobytes_cons8]
        dsimp only
        rw [List.takeWhile_cons]
        simp only [bne_iff_ne, ne_eq, hv, not_false_eq_true, if_pos, if_true]
      have hgs2 : (getstring (b0 :: b1 :: b2 :: b3 :: b4 :: b5 :: b6 :: b7 ::
          rest)).2 = (getstring rest).2 := by
        rw [getstring, getstring, tobytes_cons8]
        dsimp only
        rw [List.takeWhile_cons]
        simp only [bne_iff_ne, ne_eq, hv, not_false_eq_true, if_pos, if_true]
        rw [List.length_cons]
        have harith : (((tobytes rest).takeWhile (fun b => b != 0)).length
            + 1 + 1) * 8 =
            (((tobytes rest).takeWhile (fun b => b != 0)).length + 1) * 8
              + 8 := by ring
        rw [harith]
        rfl
      rw [hgs1, hgs2]
      simp only [List.map_cons, List.flatten_cons]
      rw [byteBits_bitsToNat (by rfl)]
      have hshape : ∀ tail : Bits,
          (([b0, b1, b2, b3, b4, b5, b6, b7] ++
              ((getstring rest).1.map byteBits).flatten ++
            List.replicate 8 false) ++ tail) =
          b0 :: b1 :: b2 :: b3 :: b4 :: b5 :: b6 :: b7 ::
            ((((getstring rest).1.map byteBits).flatten ++
              List.replicate 8 false) ++ tail) := by
        intro tail
        simp [List.append_assoc]
      rw [hshape, ih]
      rfl

/-- `stringFrom` then `encStrV` reproduces the input up to trailing zeros. -/
theorem stringFrom_rt {bits : Bits} {v : StrV} {rest : Bits}
    (h : stringFrom bits = .ok (v, rest)) :
    ∃ k, encStrV v ++ rest = bits ++ List.replicate k false := by
  rw [stringFrom] at h
  split at h
  · exact absurd h (by simp)
  · next szb b1 hg =>
    obtain ⟨happ, hlen⟩ := getnbits_parts hg
    have h32 : int2bitarray (toint szb) 32 ++ b1 = bits := by
      have h32' : (32 : Nat) = szb.length := hlen.symm
      rw [h32', int2bitarray_toint (by omega), happ]
    dsimp only at h
    by_cases hsz : toint szb > 0
    · rw [if_pos hsz] at h
      rcases hgs : getstring b1 with ⟨cs, b2⟩
      rw [hgs] at h
      dsimp only at h
      by_cases hne : cs.length + 1 ≠ toint szb
      · rw [if_pos hne] at h; exact absurd h (by simp)
      · rw [if_neg hne] at h
        simp only [Except.ok.injEq, Prod.mk.injEq] at h
        obtain ⟨hv, hr⟩ := h
        have hstr := getstring_rt b1
        rw [hgs] at hstr
        dsimp only at hstr
        rw [← hv, ← hr, encStrV]
        dsimp only
        rw [if_pos hsz]
        exact zext_comp (zext_exact h32) hstr
    · rw [if_neg hsz] at h
      simp only [Except.ok.injEq, Prod.mk.injEq] at h
      obtain ⟨hv, hr⟩ := h
      rw [← hv, ← hr, encStrV]
      dsimp only
      rw [if_neg hsz]
      exact ⟨0, by simp [h32]⟩


/-- Re-encoding a decoded `Mystery1` value is exact up to the zeros its
string fields may append. -/
theorem mystery1From_rt {bits : Bits} {v : BasicValue} {rest : Bits}
    (h : mystery1From bits = .ok (v, rest)) :
    ∃ k, encBasicValue v ++ rest = bits ++ List.replicate k false := by
  rw [mystery1From] at h
  split at h
  · exact absurd h (by simp)
  next i1 b1 h1 =>
  split at h
  · exact absurd h (by simp)
  next i2 b2 h2 =>
  split at h
  · exact absurd h (by simp)
  next i3 b3 h3 =>
  split at h
  · exact absurd h (by simp)
  next i4 b4 h4 =>
  split at h
  · exact absurd h (by simp)
  next s1 b5 h5 =>
  split at h
  · exact absurd h (by simp)
  next s2 b6 h6 =>
  split at h
  · exact absurd h (by simp)
  next i5 b7 h7 =>
  split at h
  · exact absurd h (by simp)
  next i6 b8 h8 =>
  split at h
  · exact absurd h (by simp)
  next s3 b9 h9 =>
  simp only [Except.ok.injEq, Prod.mk.injEq] at h
  obtain ⟨hv, hr⟩ := h
  rw [← hv, ← hr]
  simp only [encBasicValue]
  exact zext_comp (zext_comp (zext_comp (zext_comp (zext_comp (zext_comp (zext_comp (zext_comp (zext_exact (intFrom_rt h1)) (zext_exact (intFrom_rt h2))) (zext_exact (intFrom_rt h3))) (zext_exact (intFrom_rt h4))) (stringFrom_rt h5)) (stringFrom_rt h6)) (zext_exact (intFrom_rt h7))) (zext_exact (intFrom_rt h8))) (stringFrom_rt h9)

/-- Re-encoding a decoded `Mystery2` value, likewise. -/
theorem mystery2From_rt {bits : Bits} {v : BasicValue} {rest : Bits}
    (h : mystery2From bits = .ok (v, rest)) :
    ∃ k, encBasicValue v ++ rest = bits ++ List.replicate k false := by
  rw [mystery2From] at h
  split at h
  · exact absurd h (by simp)
  next s1 b1 h1 =>
  split at h
  · exact absurd h (by simp)
  next s2 b2 h2 =>
  split at h
  · exact absurd h (by simp)
  next s3 b3 h3 =>
  simp only [Except.ok.injEq, Prod.mk.injEq] at h
  obtain ⟨hv, hr⟩ := h
  rw [← hv, ← hr]
  simp only [encBasicValue]
  exact zext_comp (zext_comp (stringFrom_rt h1) (stringFrom_rt h2)) (stringFrom_rt h3)

/-- Re-encoding a decoded `Mystery3` value, likewise. -/
theorem mystery3From_rt {bits : Bits} {v : BasicValue} {rest : Bits}
    (h : mystery3From bits = .ok (v, rest)) :
    ∃ k, encBasicValue v ++ rest = bits ++ List.replicate k false := by
  rw [mystery3From] at h
  split at h
  · exact absurd h (by simp)
  next s1 b1 h1 =>
  split at h
  · exact absurd h (by simp)
  next s2 b2 h2 =>
  simp only [Except.ok.injEq, Prod.mk.injEq] at h
  obtain ⟨hv, hr⟩ := h
  rw [← hv, ← hr]
  simp only [encBasicValue]
  exact zext_comp (stringFrom_rt h1) (stringFrom_rt h2)

/-- `parse_basic_property` round-trip: re-encoding any successfully decoded
scalar value and appending the leftover reproduces the input up to trailing
zeros (only string-bearing kinds can contribute zeros). -/
theorem parseBasicProperty_rt {ptype : Option PropType} {psize : Option Nat}
    {bits : Bits} {v : BasicValue} {rest : Bits}
    (h : parseBasicProperty ptype psize bits = .ok (v, rest)) :
    ∃ k, encBasicValue v ++ rest = bits ++ List.replicate k false := by
  match ptype with
  | none => exact absurd h (by rw [parseBasicProperty]; simp)
  | some (.params ms) => exact absurd h (by rw [parseBasicProperty]; simp)
  | some (.struct ms) => exact absurd h (by rw [parseBasicProperty]; simp)
  | some (.basic .tstr) =>
    rw [parseBasicProperty] at h
    split at h
    · exact absurd h (by simp)
    next sv b1 hs =>
    simp only [Except.ok.injEq, Prod.mk.injEq] at h
    obtain ⟨hv, hr⟩ := h
    rw [← hv, ← hr]
    simp only [encBasicValue]
    exact stringFrom_rt hs
  | some (.basic .tint) =>
    rw [parseBasicProperty] at h
    split at h
    · exact absurd h (by simp)
    next n b1 hs =>
    simp only [Except.ok.injEq, Prod.mk.injEq] at h
    obtain ⟨hv, hr⟩ := h
    rw [← hv, ← hr]
    simp only [encBasicValue]
    exact zext_exact (intFrom_rt hs)
  | some (.basic .tfloat) =>
    rw [parseBasicProperty] at h
    split at h
    · exact absurd h (by simp)
    next vb b1 hs =>
    simp only [Except.ok.injEq, Prod.mk.injEq] at h
    obtain ⟨hv, hr⟩ := h
    rw [← hv, ← hr]
    simp only [encBasicValue]
    exact zext_exact (getnbits_parts hs).1
  | some (.basic .tbool) =>
    rw [parseBasicProperty] at h
    split at h
    · exact absurd h (by simp)
    next vb b1 hs =>
    simp only [Except.ok.injEq, Prod.mk.injEq] at h
    obtain ⟨hv, hr⟩ := h
    rw [← hv, ← hr]
    simp only [encBasicValue]
    obtain ⟨happ, hlen⟩ := getnbits_parts hs
    rw [headD_singleton hlen]
    exact zext_exact happ
  | some (.basic .tflag) =>
    rw [parseBasicProperty] at h
    simp only [Except.ok.injEq, Prod.mk.injEq] at h
    obtain ⟨hv, hr⟩ := h
    rw [← hv, ← hr]
    simp only [encBasicValue]
    exact zext_exact rfl
  | some (.basic .tbits) =>
    match psize with
    | none => exact absurd h (by rw [parseBasicProperty] at h; simp at h)
    | some n =>
      rw [parseBasicProperty] at h
      split at h
      · exact absurd h (by simp)
      next vb b1 hs =>
      simp only [Except.ok.injEq, Prod.mk.injEq] at h
      obtain ⟨hv, hr⟩ := h
      rw [← hv, ← hr]
      simp only [encBasicValue]
      exact zext_exact (getnbits_parts hs).1
  | some (.basic .tmy1) => exact mystery1From_rt h
  | some (.basic .tmy2) => exact mystery2From_rt h
  | some (.basic .tmy3) => exact mystery3From_rt h


/-- `PropertyValueParams` round-trip: a fully successful member decode
re-encodes exactly (up to zeros from string members). -/
theorem paramsFrom_rt : ∀ {members : List Member} {bits : Bits}
    {ps : List Bool} {vs : List (Option BasicValue)} {rest : Bits},
    paramsFrom members bits = ((ps, vs), .ok rest) →
    ∃ k, encParamsAux ps vs ++ rest = bits ++ List.replicate k false := by
  intro members
  induction members with
  | nil =>
    intro bits ps vs rest h
    simp only [paramsFrom, Prod.mk.injEq] at h
    obtain ⟨⟨h1, h2⟩, h3⟩ := h
    subst h1; subst h2
    have h3' : bits = rest := by simpa using h3
    subst h3'
    exact ⟨0, by simp [encParamsAux]⟩
  | cons m ms ih =>
    intro bits ps vs rest h
    rw [paramsFrom] at h
    split at h
    · simp at h
    · next pb b1 hg =>
      obtain ⟨happ, hlen⟩ := getnbits_parts hg
      by_cases hp : pb.headD false = true
      · rw [if_pos hp] at h
        cases hb : parseBasicProperty m.type m.size b1 with
        | error e =>
          rw [hb] at h
          dsimp only at h
          simp only [Prod.mk.injEq] at h
          exact absurd h.2 (by simp)
        | ok vb =>
          obtain ⟨v, b2⟩ := vb
          rw [hb] at h
          dsimp only at h
          rcases hrec : paramsFrom ms b2 with ⟨⟨ps2, vs2⟩, r⟩
          rw [hrec] at h
          dsimp only at h
          simp only [Prod.mk.injEq] at h
          obtain ⟨⟨hps, hvs⟩, hr⟩ := h
          subst hps; subst hvs; subst hr
          have hpb : pb = [true] := by
            rw [← headD_singleton hlen, hp]
          obtain ⟨k, comp⟩ := zext_comp (zext_comp (zext_exact happ)
            (parseBasicProperty_rt hb)) (ih hrec)
          refine ⟨k, ?_⟩
          rw [hpb] at comp
          simp only [List.singleton_append] at comp
          simp only [encParamsAux, List.headD_cons, List.tail_cons]
          rw [if_pos hp]
          simpa [encOptValue] using comp
      · rw [if_neg hp] at h
        rcases hrec : paramsFrom ms b1 with ⟨⟨ps2, vs2⟩, r⟩
        rw [hrec] at h
        dsimp only at h
        simp only [Prod.mk.injEq] at h
        obtain ⟨⟨hps, hvs⟩, hr⟩ := h
        subst hps; subst hvs; subst hr
        have hpf : pb.headD false = false := by
          cases hv : pb.headD false
          · rfl
          · exact absurd hv hp
        have hpb : pb = [false] := by
          rw [← headD_singleton hlen, hpf]
        obtain ⟨k, comp⟩ := zext_comp (zext_exact happ) (ih hrec)
        refine ⟨k, ?_⟩
        rw [hpb] at comp
        simp only [List.singleton_append] at comp
        simp only [encParamsAux, List.headD_cons, List.tail_cons]
        rw [if_neg hp]
        simpa using comp

/-- `PropertyValueStruct` round-trip for a fully successful decode. -/
theorem structFrom_rt : ∀ {members : List Member} {bits : Bits}
    {vs : List BasicValue} {rest : Bits},
    structFrom members bits = (vs, .ok rest) →
    ∃ k, (vs.map encBasicValue).flatten ++ rest =
      bits ++ List.replicate k false := by
  intro members
  induction members with
  | nil =>
    intro bits vs rest h
    simp only [structFrom, Prod.mk.injEq] at h
    obtain ⟨h1, h2⟩ := h
    subst h1
    have h2' : bits = rest := by simpa using h2
    subst h2'
    exact ⟨0, by simp⟩
  | cons m ms ih =>
    intro bits vs rest h
    rw [structFrom] at h
    split at h
    · simp at h
    · next v b1 hb =>
      rcases hrec : structFrom ms b1 with ⟨vs2, r⟩
      rw [hrec] at h
      dsimp only at h
      simp only [Prod.mk.injEq] at h
      obtain ⟨hvs, hr⟩ := h
      subst hvs; subst hr
      obtain ⟨k, comp⟩ := zext_comp (parseBasicProperty_rt hb) (ih hrec)
      refine ⟨k, ?_⟩
      simpa using comp

/-- `PropertyValueMultipleChoice` round-trip: the stored value bits are
exactly the consumed bits. -/
theorem choiceFrom_rt {psize : Option Nat} {values : List (Bits × String)}
    {bits : Bits} {vb : Bits} {label : String} {rest : Bits}
    (h : choiceFrom psize values bits = .ok ((vb, label), rest)) :
    vb ++ rest = bits := by
  match psize with
  | none => simp [choiceFrom] at h
  | some n =>
    rw [choiceFrom] at h
    split at h
    · exact absurd h (by simp)
    · next vb2 b1 hg =>
      simp only [Except.ok.injEq, Prod.mk.injEq] at h
      obtain ⟨⟨hvb, _⟩, hr⟩ := h
      rw [← hvb, ← hr]
      exact (getnbits_parts hg).1


/-- `ObjectProperty` round-trip (successful decode): the id field
re-encodes exactly (its width never exceeds 32 on well-formed states) and
the value re-encodes up to trailing zeros from string fields. -/
theorem objPropFrom_rt {idsize : Nat} {cls : ClassDescr} {bits : Bits}
    {p : ObjProp} {b2 : Bits} (hw : idsize ≤ 32)
    (h : objPropFrom idsize cls bits = (p, .ok b2)) :
    ∃ k, encObjProp p ++ b2 = bits ++ List.replicate k false := by
  rw [objPropFrom] at h
  split at h
  · simp at h
  · next idbits b1 hg =>
    obtain ⟨happ, hlen⟩ := getnbits_parts hg
    have hid : int2bitarray (toint idbits) idsize = idbits := by
      rw [← hlen]
      exact int2bitarray_toint (by omega)
    split at h
    · simp at h
    · next pe hfind =>
      by_cases hval : pe.values ≠ []
      · rw [if_pos hval] at h
        split at h
        · simp at h
        · next vb label b2x hc =>
          simp only [Prod.mk.injEq, Except.ok.injEq] at h
          obtain ⟨hp, hb⟩ := h
          rw [← hp]
          simp only [encObjProp]
          simp only [encValue]
          rw [hid]
          refine zext_exact ?_
          rw [List.append_assoc, ← hb, choiceFrom_rt hc, happ]
      · rw [if_neg hval] at h
        split at h
        · next members heq =>
          rcases hrec : paramsFrom members b1 with ⟨⟨ps, vs⟩, r⟩
          rw [hrec] at h
          dsimp only at h
          simp only [Prod.mk.injEq] at h
          obtain ⟨hp, hr⟩ := h
          rw [hr] at hrec
          rw [← hp]
          simp only [encObjProp]
          simp only [encValue]
          rw [hid]
          exact zext_comp (zext_exact happ) (paramsFrom_rt hrec)
        · next members heq =>
          rcases hrec : structFrom members b1 with ⟨vs, r⟩
          rw [hrec] at h
          dsimp only at h
          simp only [Prod.mk.injEq] at h
          obtain ⟨hp, hr⟩ := h
          rw [hr] at hrec
          rw [← hp]
          simp only [encObjProp]
          simp only [encValue]
          rw [hid]
          exact zext_comp (zext_exact happ) (structFrom_rt hrec)
        · next bt heq =>
          split at h
          · simp at h
          · next v b2x hb =>
            simp only [Prod.mk.injEq, Except.ok.injEq] at h
            obtain ⟨hp, hbeq⟩ := h
            rw [← hp]
            simp only [encObjProp]
            simp only [encValue]
            rw [hid]
            rw [hbeq] at hb
            exact zext_comp (zext_exact happ) (parseBasicProperty_rt hb)
        · simp at h

/-- `ObjectInstance` round-trip: a clean instance decode re-encodes its
input up to trailing zeros. -/
theorem objInstFrom_rt : ∀ {fuel : Nat} {cls : ClassDescr} {idsize : Nat}
    {bits : Bits} {props : List ObjProp} {leftover : Bits},
    idsize ≤ 32 →
    objInstFrom fuel cls idsize bits = (props, .ok leftover) →
    ∃ k, encObjInst props ++ leftover = bits ++ List.replicate k false := by
  intro fuel
  induction fuel with
  | zero =>
    intro cls idsize bits props leftover hw h
    rw [objInstFrom] at h
    simp at h
  | succ fuel ih =>
    intro cls idsize bits props leftover hw h
    cases bits with
    | nil =>
      rw [objInstFrom] at h
      simp only [Prod.mk.injEq, Except.ok.injEq] at h
      obtain ⟨h1, h2⟩ := h
      rw [← h1, ← h2]
      exact ⟨0, by simp [encObjInst]⟩
    | cons b bs =>
      simp only [objInstFrom] at h
      rcases hp : objPropFrom idsize cls (b :: bs) with ⟨p, r⟩
      rw [hp] at h
      dsimp only at h
      cases r with
      | error e => simp at h
      | ok b2 =>
        dsimp only at h
        rcases hrec : objInstFrom fuel cls idsize b2 with ⟨ps, r2⟩
        rw [hrec] at h
        dsimp only at h
        simp only [Prod.mk.injEq] at h
        obtain ⟨h1, h2⟩ := h
        rw [h2] at hrec
        obtain ⟨k, comp⟩ := zext_comp (objPropFrom_rt hw hp) (ih hw hrec)
        refine ⟨k, ?_⟩
        rw [← h1]
        simpa [encObjInst] using comp


/-- A clean `runObjBody` consumed the whole body and its decoded properties
re-encode the body up to trailing zeros. -/
theorem runObjBody_ok_rt {oc : Option ObjClass} {iname : String}
    {cls : ClassDescr} {pb : Bits} {ch size : Nat} {st : ParserState}
    {oc' : Option ObjClass} {iname' : Option String}
    {inst : Option (List ObjProp)} {deleted : Bool} {st' : ParserState}
    (hwf : wfClass cls)
    (h : runObjBody oc iname cls pb ch size st =
      .ok oc' iname' inst deleted st') :
    ∃ props k, inst = some props ∧
      encObjInst props = pb ++ List.replicate k false := by
  rw [runObjBody] at h
  split at h
  · exact absurd h (by simp)
  · next w hww =>
    split at h
    · exact absurd h (by simp)
    · exact absurd h (by simp)
    · next props leftover hinst =>
      split at h
      · exact absurd h (by simp)
      · next hleft =>
        have hl : leftover = [] := not_not.mp hleft
        obtain ⟨k, comp⟩ := objInstFrom_rt (hwf.2 w hww) hinst
        rw [hl, List.append_nil] at comp
        split at h
        · simp only [BodyResult.ok.injEq] at h
          exact ⟨props, k, h.2.2.1.symm, comp⟩
        · simp only [BodyResult.ok.injEq] at h
          exact ⟨props, k, h.2.2.1.symm, comp⟩

/-- The size field re-encodes exactly: its recorded width is 13 or 14 and
`int2bitarray size width` followed by the (possibly re-extended) remaining
stream is the original input. -/
theorem readPayloadSize_rt {bits : Bits} {size nbits : Nat} {rest : Bits}
    (h : readPayloadSize bits = .ok ((size, nbits), rest)) :
    nbits ≤ 32 ∧ int2bitarray size nbits ++ rest = bits := by
  rw [readPayloadSize] at h
  split at h
  · exact absurd h (by simp)
  · next szbits b1 hg =>
    obtain ⟨happ, hlen⟩ := getnbits_parts hg
    by_cases hesc : (szbits.getD 10 false && szbits.getD 13 false) = true
    · rw [if_pos hesc] at h
      simp only [Except.ok.injEq, Prod.mk.injEq] at h
      obtain ⟨⟨hsz, hnb⟩, hrest⟩ := h
      have h13 : szbits.getD 13 false = true := by
        rw [Bool.and_eq_true] at hesc
        exact hesc.2
      have hdlen : szbits.dropLast.length = 13 := by
        rw [List.length_dropLast, hlen]
      have hd : szbits.drop 13 = [true] := by
        have hlen1 : (szbits.drop 13).length = 1 := by
          rw [List.length_drop, hlen]
        rw [← headD_singleton hlen1]
        congr 1
        rw [List.headD_eq_head?_getD, List.head?_drop]
        rw [List.getD_eq_getElem?_getD] at h13
        exact h13
      have hsplit : szbits.dropLast ++ [true] = szbits := by
        rw [List.dropLast_eq_take, hlen]
        norm_num
        rw [← hd]
        exact List.take_append_drop 13 szbits
      refine ⟨by omega, ?_⟩
      rw [← hsz, ← hnb, int2bitarray_toint (by omega), ← hrest]
      calc szbits.dropLast ++ (true :: b1)
          = (szbits.dropLast ++ [true]) ++ b1 := by simp
        _ = szbits ++ b1 := by rw [hsplit]
        _ = bits := happ
    · rw [if_neg hesc] at h
      simp only [Except.ok.injEq, Prod.mk.injEq] at h
      obtain ⟨⟨hsz, hnb⟩, hrest⟩ := h
      refine ⟨by omega, ?_⟩
      rw [← hsz, ← hnb, int2bitarray_toint (by omega), ← hrest]
      exact happ

/-- `reencodes` from a trailing-zeros equation. -/
theorem reenc_of_zext {bits enc rest : Bits} {k : Nat}
    (h : enc ++ rest = bits ++ List.replicate k false) :
    reencodes bits enc rest := by
  refine ⟨k, ?_, ?_⟩
  · have := congrArg List.length h
    simpa using this
  · intro hk
    rw [hk] at h
    simpa using h

/-- `reencodes` from an exact equation. -/
theorem reenc_exact {bits enc rest : Bits} (h : enc ++ rest = bits) :
    reencodes bits enc rest :=
  ⟨0, by have := congrArg List.length h; simp at this; omega,
    fun _ => h⟩

/-- `reencodes` composes: decode a prefix, then decode from its
remainder. -/
theorem reenc_comp {b e1 r1 e2 r2 : Bits}
    (h1 : reencodes b e1 r1) (h2 : reencodes r1 e2 r2) :
    reencodes b (e1 ++ e2) r2 := by
  obtain ⟨k1, hl1, he1⟩ := h1
  obtain ⟨k2, hl2, he2⟩ := h2
  refine ⟨k1 + k2, by simp only [List.length_append]; omega, ?_⟩
  intro hk
  have hk1 : k1 = 0 := by omega
  have hk2 : k2 = 0 := by omega
  rw [List.append_assoc, he2 hk2, he1 hk1]

/-- `reencodes` for a fully consumed sub-stream re-encoded with trailing
zeros (the instance-body case: the body ends exactly where the zeros would
sit). -/
theorem reenc_body {b1 pb rest enc : Bits} {k : Nat}
    (henc : enc = pb ++ List.replicate k false) (happ : pb ++ rest = b1) :
    reencodes b1 enc rest := by
  refine ⟨k, ?_, ?_⟩
  · have h1 := congrArg List.length henc
    have h2 := congrArg List.length happ
    simp at h1 h2
    omega
  · intro hk
    rw [henc, hk]
    simpa using happ


/-- Membership in an association-list update: an element of the updated
list is an old element or the new pair. -/
theorem mem_updateA {α β : Type} [BEq α] {l : List (α × β)} {k : α} {v : β}
    {kv : α × β} (h : kv ∈ updateA l k v) : kv ∈ l ∨ kv = (k, v) := by
  rw [updateA] at h
  split at h
  · obtain ⟨kv0, hkv0, heq⟩ := List.mem_map.mp h
    by_cases hb : (kv0.1 == k) = true
    · rw [if_pos hb] at heq
      exact .inr heq.symm
    · rw [if_neg hb] at heq
      exact .inl (heq ▸ hkv0)
  · rcases List.mem_append.mp h with h1 | h1
    · exact .inl h1
    · exact .inr (by simpa using h1)

/-- Deleting a channel preserves state well-formedness. -/
theorem wfState_delA_channels {st : ParserState} {ch : Nat}
    (hwf : wfState st) :
    wfState { st with channels := delA st.channels ch } := by
  refine ⟨hwf.1, ?_⟩
  intro cb hcb
  exact hwf.2 cb (List.mem_of_mem_filter hcb)

/-- Registering an unknown class (empty property table, no idsize)
preserves state well-formedness. -/
theorem wfState_registerClass {st : ParserState} (hwf : wfState st)
    (key : Bits) : wfState (registerClass st key) := by
  rw [registerClass]
  split
  · exact hwf
  · refine ⟨?_, hwf.2⟩
    intro kv hkv
    rcases List.mem_append.mp hkv with h1 | h1
    · exact hwf.1 kv h1
    · have hkv2 : kv = (some key,
          { name := "unknown" ++ toString st.class_dict.length,
            props := [] }) := by simpa using h1
      rw [hkv2]
      exact ⟨by intro kv2 hkv2; simp at hkv2, by intro w hw; simp at hw⟩

/-- A successful association-list lookup returns the second component of a
member. -/
theorem lookupA_mem {α β : Type} [BEq α] {l : List (α × β)} {k : α} {v : β}
    (h : lookupA l k = some v) : ∃ kv ∈ l, kv.2 = v := by
  rw [lookupA] at h
  rcases hf : l.find? (fun kv => kv.1 == k) with _ | kv
  · rw [hf] at h; simp at h
  · rw [hf] at h
    simp at h
    exact ⟨kv, List.mem_of_find?_eq_some hf, h⟩

/-- Binding a channel produces a well-formed descriptor and preserves state
well-formedness: the new `idsize` is the length of the first property key
(bounded by 32 on well-formed states) or 6. -/
theorem bindChannel_wf {st : ParserState} {ch : Nat} {key : Option Bits}
    {cls2 : ClassDescr} {iname : String} {st2 : ParserState}
    (hwf : wfState st)
    (h : bindChannel st ch key = some (cls2, iname, st2)) :
    wfClass cls2 ∧ wfState st2 := by
  rw [bindChannel] at h
  split at h
  · exact absurd h (by simp)
  · next cls hlk =>
    simp only [Option.some.injEq, Prod.mk.injEq] at h
    obtain ⟨hc, hi, hs⟩ := h
    obtain ⟨kv, hkv, hkv2⟩ := lookupA_mem hlk
    have hwcls : wfClass cls := hkv2 ▸ hwf.1 kv hkv
    have hw32 : (match cls.props with
        | [] => 6
        | (k, _) :: _ => k.length) ≤ 32 := by
      match hp : cls.props with
      | [] => decide
      | (k0, e0) :: tl =>
        have hm := hwcls.1 (k0, e0) (by rw [hp]; exact List.mem_cons_self _ _)
        simpa using hm
    have hwcls2 : wfClass cls2 := by
      rw [← hc]
      refine ⟨hwcls.1, ?_⟩
      intro w hw
      simp only at hw
      simp only [Option.some.injEq] at hw
      omega
    refine ⟨hwcls2, ?_⟩
    rw [← hs]
    constructor
    · intro kv2 hkv2m
      rcases mem_updateA hkv2m with h1 | h1
      · exact hwf.1 kv2 h1
      · rw [h1]
        exact hc ▸ hwcls2
    · intro cb hcbm
      rcases mem_updateA hcbm with h1 | h1
      · exact hwf.2 cb h1
      · rw [h1]
        exact hc ▸ hwcls2

/-- The state `runObjBody` hands back (clean or captured) is the input
state, possibly with the channel deleted. -/
theorem runObjBody_state {oc : Option ObjClass} {iname : String}
    {cls : ClassDescr} {pb : Bits} {ch size : Nat} {st st' : ParserState}
    (h : resultState (runObjBody oc iname cls pb ch size st) = some st') :
    st' = st ∨ st' = { st with channels := delA st.channels ch } := by
  rw [runObjBody] at h
  split at h
  · simp [resultState] at h
  · split at h
    · simp only [resultState, Option.some.injEq] at h
      exact .inl h.symm
    · simp [resultState] at h
    · split at h
      · simp only [resultState, Option.some.injEq] at h
        exact .inl h.symm
      · split at h
        · simp only [resultState, Option.some.injEq] at h
          exact .inr h.symm
        · simp only [resultState, Option.some.injEq] at h
          exact .inl h.symm

/-- Any state carried out of `payloadBody` (clean or captured outcome) is
well-formed when the input state is. -/
theorem payloadBody_wf {pb : Bits} {ch size : Nat} {st st' : ParserState}
    (hwf : wfState st)
    (h : resultState (payloadBody pb ch size st) = some st') :
    wfState st' := by
  rw [payloadBody] at h
  split at h
  · rcases runObjBody_state h with h1 | h1
    · exact h1 ▸ hwf
    · exact h1 ▸ wfState_delA_channels hwf
  · split at h
    · simp only [resultState, Option.some.injEq] at h
      exact h ▸ hwf
    · simp [resultState] at h
    · next classbits rest2 hg =>
      dsimp only at h
      rcases hb : bindChannel (registerClass st (getclasskey (toint classbits)))
          ch (if ch ≠ 0 then some (getclasskey (toint classbits)) else none)
        with _ | ⟨cls2, iname2, st2⟩
      · rw [hb] at h
        simp [resultState] at h
      · rw [hb] at h
        dsimp only at h
        have hwf2 := (bindChannel_wf (wfState_registerClass hwf _) hb).2
        rcases runObjBody_state h with h1 | h1
        · exact h1 ▸ hwf2
        · exact h1 ▸ wfState_delA_channels hwf2

/-- `PayloadData.frombitarray` preserves state well-formedness. -/
theorem payloadFrom_wf {bits : Bits} {ch : Nat} {rel : Bool}
    {st : ParserState} {p : PayloadData} {st' : ParserState} {rest : Bits}
    (hwf : wfState st)
    (h : payloadFrom bits ch rel st = .ok ((p, st'), rest)) :
    wfState st' := by
  obtain ⟨size, nbits, b1, pb, _, _, _, _, _, hbody⟩ := payloadFrom_ok_body h
  rcases hbody with ⟨d, hb, _⟩ | ⟨m, blv, hb, _⟩
  · exact payloadBody_wf hwf (by rw [hb]; rfl)
  · exact payloadBody_wf hwf (by rw [hb]; rfl)


/-- A clean `payloadBody`: the class-id field (when one was read) and the
decoded instance properties re-encode the whole payload body up to
trailing zeros. -/
theorem payloadBody_ok_rt {pb : Bits} {ch size : Nat} {st : ParserState}
    {oc : Option ObjClass} {iname : Option String}
    {inst : Option (List ObjProp)} {deleted : Bool} {st' : ParserState}
    (hwf : wfState st)
    (h : payloadBody pb ch size st = .ok oc iname inst deleted st') :
    ∃ props k, inst = some props ∧
      encClassField oc ++ encObjInst props = pb ++ List.replicate k false := by
  rw [payloadBody] at h
  split at h
  · next b hlk =>
    have hoc := runObjBody_oc_ok h
    obtain ⟨kv, hkv, hkv2⟩ := lookupA_mem hlk
    have hwcls : wfClass b.class_ := hkv2 ▸ hwf.2 kv hkv
    obtain ⟨props, k, hinst, henc⟩ := runObjBody_ok_rt hwcls h
    refine ⟨props, k, hinst, ?_⟩
    subst hoc
    simpa [encClassField] using henc
  · split at h
    · simp at h
    · simp at h
    · next classbits rest2 hg =>
      dsimp only at h
      rcases hb : bindChannel (registerClass st (getclasskey (toint classbits)))
          ch (if ch ≠ 0 then some (getclasskey (toint classbits)) else none)
        with _ | ⟨cls2, iname2, st2⟩
      · rw [hb] at h
        simp at h
      · rw [hb] at h
        dsimp only at h
        have hoc := runObjBody_oc_ok h
        have hwcls2 := (bindChannel_wf (wfState_registerClass hwf _) hb).1
        obtain ⟨props, k, hinst, henc⟩ := runObjBody_ok_rt hwcls2 h
        refine ⟨props, k, hinst, ?_⟩
        subst hoc
        rw [encClassField]
        dsimp only
        obtain ⟨happ, hlen⟩ := getnbits_parts hg
        have hcb : int2bitarray (toint classbits) 32 = classbits := by
          rw [← hlen]
          exact int2bitarray_toint (by omega)
        rw [hcb, henc, ← happ, List.append_assoc]

/-- C1 payload layer: an accepted payload that captured no error re-encodes
exactly the bits it consumed whenever the whole packet gained nothing
(`reencodes` carries the length bookkeeping unconditionally). -/
theorem payloadFrom_rt {bits : Bits} {ch : Nat} {rel : Bool}
    {st : ParserState} {p : PayloadData} {st' : ParserState} {rest : Bits}
    (hwf : wfState st)
    (h : payloadFrom bits ch rel st = .ok ((p, st'), rest))
    (hclean : p.bitsleftreason = none) :
    reencodes bits (encPayload p) rest := by
  obtain ⟨size, nbits, b1, pb, hsz, hpb, hpsize, hpnb, _, hbody⟩ :=
    payloadFrom_ok_body h
  rcases hbody with ⟨d, hb, _, _, hbl⟩ | ⟨m, blv, _, _, hblr, _⟩
  · obtain ⟨hnb32, hszenc⟩ := readPayloadSize_rt hsz
    obtain ⟨props, k, hinst, henc⟩ := payloadBody_ok_rt hwf hb
    obtain ⟨happ, hlen⟩ := getnbits_parts hpb
    have hshape : encPayload p =
        int2bitarray size nbits ++
          (encClassField p.object_class ++ encObjInst props) := by
      rw [encPayload, hpsize, hpnb, hinst, hbl, encClassField.eq_def]
      simp [List.append_assoc]
    rw [hshape]
    exact reenc_comp (reenc_exact hszenc) (reenc_body henc happ)
  · rw [hclean] at hblr
    exact absurd hblr (by simp)


/-- C1 channel layer: channel number, counter and unknown bits re-encode
exactly; the payload re-encodes via `reencodes`. -/
theorem channelFrom_rt {bits : Bits} {wc : Bool} {st : ParserState}
    {cd : ChannelData} {st' : ParserState} {rest : Bits}
    (hwf : wfState st)
    (h : channelFrom bits wc st = .ok ((cd, st'), rest))
    (hclean : payloadClean cd.payload) :
    reencodes bits (encChannelData cd) rest := by
  rw [channelFrom] at h
  split at h
  · exact absurd h (by simp)
  · next cb b1 hg =>
    obtain ⟨happ, hlen⟩ := getnbits_parts hg
    have hcb : int2bitarray (toint cb) 10 = cb := by
      rw [← hlen]; exact int2bitarray_toint (by omega)
    cases wc with
    | false =>
      rw [if_neg (by simp)] at h
      split at h
      · exact absurd h (by simp)
      · next p st1 b4 hpf =>
        simp only [Except.ok.injEq, Prod.mk.injEq] at h
        obtain ⟨⟨hcd, hst⟩, hrest⟩ := h
        subst hst; subst hrest
        have hclean' : p.bitsleftreason = none := by
          rw [← hcd] at hclean
          exact hclean
        rw [← hcd]
        simp only [encChannelData]
        rw [hcb, List.append_nil]
        refine reenc_comp (reenc_exact happ) ?_
        have hp := payloadFrom_rt hwf hpf hclean'
        simpa using hp
    | true =>
      rw [if_pos rfl] at h
      split at h
      · exact absurd h (by simp)
      · next ctb b2 hg5 =>
        split at h
        · exact absurd h (by simp)
        · next ub b3 hg8 =>
          split at h
          · exact absurd h (by simp)
          · next p st1 b4 hpf =>
            simp only [Except.ok.injEq, Prod.mk.injEq] at h
            obtain ⟨⟨hcd, hst⟩, hrest⟩ := h
            subst hst; subst hrest
            have hclean' : p.bitsleftreason = none := by
              rw [← hcd] at hclean
              exact hclean
            obtain ⟨happ5, hlen5⟩ := getnbits_parts hg5
            obtain ⟨happ8, hlen8⟩ := getnbits_parts hg8
            have hct : int2bitarray (toint ctb) 5 = ctb := by
              rw [← hlen5]; exact int2bitarray_toint (by omega)
            rw [← hcd]
            simp only [encChannelData]
            rw [hcb, hct]
            simp only [Option.getD_some]
            refine reenc_comp (reenc_comp (reenc_exact happ)
              (reenc_comp (reenc_exact ?_) (reenc_exact happ8))) ?_
            · exact happ5
            · have hp := payloadFrom_rt hwf hpf hclean'
              simpa using hp

/-- `ChannelData.frombitarray` preserves state well-formedness. -/
theorem channelFrom_wf {bits : Bits} {wc : Bool} {st : ParserState}
    {cd : ChannelData} {st' : ParserState} {rest : Bits}
    (hwf : wfState st)
    (h : channelFrom bits wc st = .ok ((cd, st'), rest)) :
    wfState st' := by
  rw [channelFrom] at h
  split at h
  · exact absurd h (by simp)
  · next cb b1 hg =>
    cases wc with
    | false =>
      rw [if_neg (by simp)] at h
      split at h
      · exact absurd h (by simp)
      · next p st1 b4 hpf =>
        simp only [Except.ok.injEq, Prod.mk.injEq] at h
        obtain ⟨⟨hcd, hst⟩, hrest⟩ := h
        subst hst
        exact payloadFrom_wf hwf hpf
    | true =>
      rw [if_pos rfl] at h
      split at h
      · exact absurd h (by simp)
      · split at h
        · exact absurd h (by simp)
        · split at h
          · exact absurd h (by simp)
          · next p st1 b4 hpf =>
            simp only [Except.ok.injEq, Prod.mk.injEq] at h
            obtain ⟨⟨hcd, hst⟩, hrest⟩ := h
            subst hst
            exact payloadFrom_wf hwf hpf

/-- Inversion of `packetDataFinish`: the decoded object records the flag
bits and wraps the decoded channel data. -/
theorem packetDataFinish_inv {esc : Bool} {flag : Bits} {u10 : Option Bits}
    {wc : Bool} {bits : Bits} {st : ParserState} {d : PacketData}
    {st' : ParserState} {rest : Bits}
    (h : packetDataFinish esc flag u10 wc bits st = .ok ((d, st'), rest)) :
    ∃ cd, channelFrom bits wc st = .ok ((cd, st'), rest) ∧
      d = { flag1a := some flag, unknownbits11 := esc,
            unknownbits10 := u10, channel_data := some cd } := by
  rw [packetDataFinish] at h
  split at h
  · exact absurd h (by simp)
  · next cd st1 b hcf =>
    simp only [Except.ok.injEq, Prod.mk.injEq] at h
    obtain ⟨⟨hd, hst⟩, hrest⟩ := h
    subst hst; subst hrest
    exact ⟨cd, hcf, hd.symm⟩



/-- Common tail of the `PacketData` round-trip: given the flag bits
re-encode exactly, the finished object re-encodes its input.  `hpre`
normalizes the flag prefix via `simp`, so it is stated in simp-normal
form (right-associated, no `[]`). -/
theorem packetDataFinish_rt {esc : Bool} {flag : Bits} {u10 : Option Bits}
    {wc : Bool} {stream bits : Bits} {st : ParserState} {d : PacketData}
    {st' : ParserState} {rest : Bits}
    (hwf : wfState st)
    (hpre : reencodes bits ((if esc then bl "11" else []) ++ flag ++
      u10.getD []) stream)
    (h : packetDataFinish esc flag u10 wc stream st = .ok ((d, st'), rest))
    (hclean : partClean (.data d)) :
    reencodes bits (encPacketData d) rest := by
  obtain ⟨cd, hcf, hd⟩ := packetDataFinish_inv h
  rw [hd] at hclean
  have hcl : payloadClean cd.payload := by
    simpa [partClean] using hclean
  have hch := channelFrom_rt hwf hcf hcl
  rw [hd]
  simp only [encPacketData]
  cases u10 with
  | none =>
    simp only [Option.getD_none] at hpre
    exact reenc_comp hpre hch
  | some u =>
    simp only [Option.getD_some] at hpre
    exact reenc_comp hpre hch

/-- C1 packet-data layer: flag bits re-encode exactly, the channel data via
`reencodes`. -/
theorem packetDataFrom_rt {bits : Bits} {st : ParserState} {d : PacketData}
    {st' : ParserState} {rest : Bits} (hwf : wfState st)
    (h : packetDataFrom bits st = .ok ((d, st'), rest))
    (hclean : partClean (.data d)) :
    reencodes bits (encPacketData d) rest := by
  rw [packetDataFrom] at h
  split at h
  · exact absurd h (by simp)
  · next f0 b0 hg0 =>
    obtain ⟨happ0, hlen0⟩ := getnbits_parts hg0
    by_cases hesc : (f0 == bl "11") = true
    · rw [if_pos hesc] at h
      have hf0 : f0 = bl "11" := eq_of_beq hesc
      rcases hg1 : getnbits 2 b0 with e | ⟨f1, b1⟩
      · rw [hg1] at h
        simp at h
      · rw [hg1] at h
        dsimp only at h
        obtain ⟨happ1, hlen1⟩ := getnbits_parts hg1
        have hx : bl "11" ++ (f1 ++ b1) = bits := by
          rw [happ1, ← hf0]; exact happ0
        by_cases h00 : (f1 == bl "00") = true
        · rw [if_pos h00] at h
          refine packetDataFinish_rt hwf (reenc_exact ?_) h hclean
          simpa using hx
        · rw [if_neg h00] at h
          by_cases h01 : (f1 == bl "01") = true
          · rw [if_pos h01] at h
            refine packetDataFinish_rt hwf (reenc_exact ?_) h hclean
            simpa using hx
          · rw [if_neg h01] at h
            by_cases h10 : (f1 == bl "10") = true
            · rw [if_pos h10] at h
              split at h
              · exact absurd h (by simp)
              · next u10 b2 hg2 =>
                obtain ⟨happ2, hlen2⟩ := getnbits_parts hg2
                split at h
                · exact absurd h (by simp)
                · refine packetDataFinish_rt hwf (reenc_exact ?_) h hclean
                  have hy : bl "11" ++ (f1 ++ (u10 ++ b2)) = bits := by
                    rw [happ2, happ1, ← hf0]; exact happ0
                  simpa using hy
            · rw [if_neg h10] at h
              exact absurd h (by simp)
    · rw [if_neg hesc] at h
      dsimp only at h
      by_cases h00 : (f0 == bl "00") = true
      · rw [if_pos h00] at h
        refine packetDataFinish_rt hwf (reenc_exact ?_) h hclean
        simpa using happ0
      · rw [if_neg h00] at h
        by_cases h01 : (f0 == bl "01") = true
        · rw [if_pos h01] at h
          refine packetDataFinish_rt hwf (reenc_exact ?_) h hclean
          simpa using happ0
        · rw [if_neg h01] at h
          by_cases h10 : (f0 == bl "10") = true
          · rw [if_pos h10] at h
            split at h
            · exact absurd h (by simp)
            · next u10 b2 hg2 =>
              obtain ⟨happ2, hlen2⟩ := getnbits_parts hg2
              split at h
              · exact absurd h (by simp)
              · refine packetDataFinish_rt hwf (reenc_exact ?_) h hclean
                have hy : f0 ++ (u10 ++ b2) = bits := by
                  rw [happ2]; exact happ0
                simpa using hy
          · rw [if_neg h10] at h
            exact absurd h (by simp)

/-- `PacketData.frombitarray` preserves state well-formedness. -/
theorem packetDataFrom_wf {bits : Bits} {st : ParserState} {d : PacketData}
    {st' : ParserState} {rest : Bits} (hwf : wfState st)
    (h : packetDataFrom bits st = .ok ((d, st'), rest)) :
    wfState st' := by
  rw [packetDataFrom] at h
  split at h
  · exact absurd h (by simp)
  · next f0 b0 hg0 =>
    by_cases hesc : (f0 == bl "11") = true
    · rw [if_pos hesc] at h
      rcases hg1 : getnbits 2 b0 with e | ⟨f1, b1⟩
      · rw [hg1] at h
        simp at h
      · rw [hg1] at h
        dsimp only at h
        by_cases h00 : (f1 == bl "00") = true
        · rw [if_pos h00] at h
          obtain ⟨cd, hcf, _⟩ := packetDataFinish_inv h
          exact channelFrom_wf hwf hcf
        · rw [if_neg h00] at h
          by_cases h01 : (f1 == bl "01") = true
          · rw [if_pos h01] at h
            obtain ⟨cd, hcf, _⟩ := packetDataFinish_inv h
            exact channelFrom_wf hwf hcf
          · rw [if_neg h01] at h
            by_cases h10 : (f1 == bl "10") = true
            · rw [if_pos h10] at h
              split at h
              · exact absurd h (by simp)
              · split at h
                · exact absurd h (by simp)
                · obtain ⟨cd, hcf, _⟩ := packetDataFinish_inv h
                  exact channelFrom_wf hwf hcf
            · rw [if_neg h10] at h
              exact absurd h (by simp)
    · rw [if_neg hesc] at h
      dsimp only at h
      by_cases h00 : (f0 == bl "00") = true
      · rw [if_pos h00] at h
        obtain ⟨cd, hcf, _⟩ := packetDataFinish_inv h
        exact channelFrom_wf hwf hcf
      · rw [if_neg h00] at h
        by_cases h01 : (f0 == bl "01") = true
        · rw [if_pos h01] at h
          obtain ⟨cd, hcf, _⟩ := packetDataFinish_inv h
          exact channelFrom_wf hwf hcf
        · rw [if_neg h01] at h
          by_cases h10 : (f0 == bl "10") = true
          · rw [if_pos h10] at h
            split at h
            · exact absurd h (by simp)
            · split at h
              · exact absurd h (by simp)
              · obtain ⟨cd, hcf, _⟩ := packetDataFinish_inv h
                exact channelFrom_wf hwf hcf
          · rw [if_neg h10] at h
            exact absurd h (by simp)


/-- C1 parts layer: the re-encoded parts and the terminator bit re-encode
everything the loop consumed; when the loop ran out of bits instead of
seeing the terminator, the phantom `1` makes the re-encoding one bit
longer, which the packet's length self-check then rejects. -/
theorem partsLoop_rt : ∀ {fuel : Nat} {bits : Bits} {st : ParserState}
    {parts : List Part} {st' : ParserState} {b2 : Bits},
    wfState st →
    partsLoop fuel bits st = .ok ((parts, st'), b2) →
    (∀ pt ∈ parts, partClean pt) →
    reencodes bits (encParts parts ++ [true]) b2 := by
  intro fuel
  induction fuel with
  | zero =>
    intro bits st parts st' b2 hwf h hclean
    rw [partsLoop] at h
    simp at h
  | succ fuel ih =>
    intro bits st parts st' b2 hwf h hclean
    cases bits with
    | nil =>
      rw [partsLoop] at h
      simp only [Except.ok.injEq, Prod.mk.injEq] at h
      obtain ⟨⟨h1, _⟩, h3⟩ := h
      rw [← h1, ← h3]
      exact ⟨1, by simp [encParts], fun hk => absurd hk one_ne_zero⟩
    | cons b bs =>
      simp only [partsLoop] at h
      rcases hg : getnbits 1 (b :: bs) with e | ⟨f, b1⟩
      · rw [hg] at h; simp at h
      · rw [hg] at h
        dsimp only at h
        obtain ⟨happf, hlenf⟩ := getnbits_parts hg
        by_cases hf : (f == [false]) = true
        · rw [if_pos hf] at h
          have hf1 : f = [false] := eq_of_beq hf
          rcases hpd : packetDataFrom b1 st with e | ⟨⟨dd, st1⟩, bb2⟩
          · rw [hpd] at h; simp at h
          · rw [hpd] at h
            dsimp only at h
            rcases hrec : partsLoop fuel bb2 st1 with e | ⟨⟨ps, st2⟩, b3⟩
            · rw [hrec] at h; simp at h
            · rw [hrec] at h
              dsimp only at h
              simp only [Except.ok.injEq, Prod.mk.injEq] at h
              obtain ⟨⟨hparts, hst⟩, hb3⟩ := h
              have hcd : partClean (.data dd) :=
                hclean _ (by rw [← hparts]; exact List.mem_cons_self _ _)
              have hwf1 : wfState st1 := packetDataFrom_wf hwf hpd
              have hd := packetDataFrom_rt hwf hpd hcd
              have hrest := ih hwf1 hrec
                (fun pt hpt => hclean pt
                  (by rw [← hparts]; exact List.mem_cons_of_mem _ hpt))
              rw [← hparts, ← hb3]
              have hshape : encParts (Part.data dd :: ps) ++ [true] =
                  ([false] ++ encPacketData dd) ++ (encParts ps ++ [true]) := by
                simp [encParts, encPart]
              rw [hshape]
              refine reenc_comp ?_ hrest
              refine reenc_comp (reenc_exact ?_) hd
              rw [← hf1]; exact happf
        · rw [if_neg hf] at h
          have hf1 : f = [true] := by
            rcases f with _ | ⟨fb, ft⟩
            · simp at hlenf
            · rcases ft with _ | ⟨c, t⟩
              · cases fb
                · exact absurd (by simp) hf
                · rfl
              · simp at hlenf
          by_cases hlen14 : b1.length ≥ 14
          · rw [if_pos hlen14] at h
            rcases hab : getnbits 14 b1 with e | ⟨ab, bb2⟩
            · rw [hab] at h; simp at h
            · rw [hab] at h
              dsimp only at h
              rcases hrec : partsLoop fuel bb2 st with e | ⟨⟨ps, st2⟩, b3⟩
              · rw [hrec] at h; simp at h
              · rw [hrec] at h
                dsimp only at h
                simp only [Except.ok.injEq, Prod.mk.injEq] at h
                obtain ⟨⟨hparts, hst⟩, hb3⟩ := h
                obtain ⟨happab, hlenab⟩ := getnbits_parts hab
                have hrest := ih hwf hrec
                  (fun pt hpt => hclean pt
                    (by rw [← hparts]; exact List.mem_cons_of_mem _ hpt))
                rw [← hparts, ← hb3]
                have hab2 : int2bitarray (toint ab) 14 = ab := by
                  rw [← hlenab]; exact int2bitarray_toint (by omega)
                have hshape : encParts (Part.ack (toint ab) :: ps) ++ [true] =
                    (f ++ int2bitarray (toint ab) 14) ++
                      (encParts ps ++ [true]) := by
                  rw [hf1]
                  simp [encParts, encPart]
                rw [hshape]
                refine reenc_comp (reenc_comp (reenc_exact happf)
                  (reenc_exact ?_)) hrest
                rw [hab2]; exact happab
          · rw [if_neg hlen14] at h
            simp only [Except.ok.injEq, Prod.mk.injEq] at h
            obtain ⟨⟨hparts, hst⟩, hb3⟩ := h
            rw [← hparts, ← hb3]
            rw [hf1] at happf
            refine reenc_exact ?_
            simpa [encParts] using happf


/-! ## Claim C1 — decode/encode round-trip -/

/-- C1 (amended): bit-exact round-trip holds for accepted packets none of
whose payloads captured a parse error.  `Packet.frombitarray`'s self-check
compares only bit *counts* (`len(bits) == original_nbits - parsed_nbits`),
and with every payload clean each payload re-encodes at least as many bits
as it consumed, so the count check forces every payload to re-encode
exactly, making `tobitarray` reproduce the input bit for bit. -/
theorem c1_roundtrip_amended {bits : Bits} {st : ParserState}
    {pkt : Packet} {st' : ParserState} {rest : Bits}
    (hwf : wfState st)
    (h : packetFrom bits st = .ok ((pkt, st'), rest))
    (hclean : ∀ pt ∈ pkt.parts, partClean pt) :
    encPacket pkt = bits := by
  rw [packetFrom] at h
  split at h
  · exact absurd h (by simp)
  · next sb b1 hg =>
    obtain ⟨happ, hlen⟩ := getnbits_parts hg
    split at h
    · exact absurd h (by simp)
    · next parts st1 b2 hpl =>
      dsimp only at h
      by_cases hchk : (b2.length : Int) ≠ (bits.length : Int) -
          ((encPacket { seqnr := some (toint sb), parts := parts }).length :
            Int)
      · rw [if_pos hchk] at h
        exact absurd h (by simp)
      · rw [if_neg hchk] at h
        push_neg at hchk
        by_cases hnp : b2.length ≠
            8 - (encPacket { seqnr := some (toint sb), parts := parts }).length % 8
        · rw [if_pos hnp] at h
          exact absurd h (by simp)
        · rw [if_neg hnp] at h
          push_neg at hnp
          split at h
          · exact absurd h (by simp)
          · next pb b3 hgp =>
            simp only [Except.ok.injEq, Prod.mk.injEq] at h
            obtain ⟨⟨hpkt, hst⟩, hrest⟩ := h
            have hcl : ∀ pt ∈ parts, partClean pt := by
              intro pt hpt
              refine hclean pt ?_
              rw [← hpkt]
              exact hpt
            obtain ⟨K, hKlen, hKex⟩ := partsLoop_rt hwf hpl hcl
            have hsb : int2bitarray (toint sb) 14 = sb := by
              rw [← hlen]
              exact int2bitarray_toint (by omega)
            have heq : encPacket { seqnr := some (toint sb), parts := parts } =
                sb ++ (encParts parts ++ [true]) := by
              simp only [encPacket]
              rw [hsb]
              simp [List.append_assoc]
            rw [heq] at hchk hnp
            have hblen : bits.length = 14 + b1.length := by
              rw [← happ, List.length_append, hlen]
            have hsl : (sb ++ (encParts parts ++ [true])).length =
                14 + (encParts parts ++ [true]).length := by
              rw [List.length_append, hlen]
            have hK0 : K = 0 := by omega
            have hex := hKex hK0
            obtain ⟨happb, hlenpb⟩ := getnbits_parts hgp
            have hlb : pb.length = b2.length := by rw [hlenpb, heq, ← hnp]
            have hb3 : b3 = [] := by
              have hl := congrArg List.length happb
              rw [List.length_append] at hl
              exact List.eq_nil_of_length_eq_zero (by omega)
            have hpbe : pb = b2 := by
              rw [← happb, hb3, List.append_nil]
            rw [← hpkt]
            have hencp : encPacket { seqnr := some (toint sb), parts := parts, paddingbits := some pb } =
                sb ++ ((encParts parts ++ [true]) ++ b2) := by
              simp only [encPacket]
              rw [hsb, hpbe]
              simp [List.append_assoc]
            rw [hencp, hex]
            exact happ

/-- Witness for `c1_roundtrip_amended`: the 16-bit packet `seq 0`,
terminator, one padding bit, on an empty (trivially well-formed) state:
accepted with no parts and re-encoded bit-for-bit. -/
theorem c1_roundtrip_witness :
    wfState { class_dict := [], instance_count := [], channels := [] } ∧
    encPacket { seqnr := some 0, parts := [], paddingbits := some [false] } =
      natToBits 0 14 ++ [true, false] :=
  ⟨⟨by intro kv hkv; simp at hkv, by intro cb hcb; simp at hcb⟩,
   @c1_roundtrip_amended (natToBits 0 14 ++ [true, false])
     { class_dict := [], instance_count := [], channels := [] }
     { seqnr := some 0, parts := [], paddingbits := some [false] }
     { class_dict := [], instance_count := [], channels := [] } []
     ⟨by intro kv hkv; simp at hkv, by intro cb hcb; simp at hcb⟩
     rfl (by intro pt hpt; simp at hpt)⟩

/-- C1 counterexample: `c1cexBits` (binding plus four string-truncation
"gain" payloads and one error-capturing "loss" payload) is accepted by
`Packet.frombitarray` — the re-encoded length matches, which is all the
self-check compares — but `tobitarray` produces different bits. -/
theorem c1_roundtrip_counterexample :
    ∃ pkt st' rest,
      packetFrom c1cexBits initState = .ok ((pkt, st'), rest) ∧
      encPacket pkt ≠ c1cexBits := by
  refine ⟨_, _, _, rfl, ?_⟩
  decide

end Udk
